import Mathlib

/-!
Shallow embedding of the validation-and-merge engine of the
customer-churn-pipeline repository (src/validation/validate_data.py),
together with proofs of the specification's claims about it.

Modelling conventions:
* a pandas DataFrame is a `Batch`: an ordered list of named columns, each
  carrying its dtype tag (the string form of `df[col].dtype`) and its cells;
* a cell is `Option Cell`: `none` models a null/NaN, numbers are rationals
  (covering the int64 and float64 payloads; no claim depends on float
  rounding, only on order comparisons);
* code that can raise (`df["customerID"]` on a frame without that column,
  elementwise comparison of strings against numbers) is modelled in
  `Except String`;
* the side effects of `main` (report writes, master writes, version-log
  entries) are recorded as an explicit event trace.
-/

set_option maxHeartbeats 1000000

namespace ChurnPipeline

/-- A single cell payload of a dataframe column: a string or a number.
Numbers are rationals, covering both pandas int64 and float64 values. -/
inductive Cell where
  | str : String → Cell
  | num : ℚ → Cell
deriving DecidableEq

/-- A dataframe column: its name, its pandas dtype tag (e.g. "int64",
"float64", "object") and its cells; a `none` cell is a null (NaN). -/
structure Column where
  name : String
  dtype : String
  cells : List (Option Cell)
deriving DecidableEq

/-- A record batch (a pandas DataFrame): an ordered list of columns. -/
structure Batch where
  cols : List Column
deriving DecidableEq

/-- Column lookup by name (first match), modelling `df[col]` and
`col in df.columns`. -/
def Batch.getCol (df : Batch) (n : String) : Option Column :=
  df.cols.find? (fun c => decide (c.name = n))

/-- Whether the batch has a column of the given name. -/
def Batch.hasCol (df : Batch) (n : String) : Bool :=
  (df.getCol n).isSome

/-- Number of rows, modelling `len(df)` (the common length of the columns;
taken from the first column). -/
def Batch.nrows (df : Batch) : Nat :=
  match df.cols with
  | [] => 0
  | c :: _ => c.cells.length

/-- EXPECTED_CATEGORIES of validate_data.py: categorical column → permitted
values. -/
def EXPECTED_CATEGORIES : List (String × List Cell) :=
  [("gender", [Cell.str "Male", Cell.str "Female"]),
   ("SeniorCitizen", [Cell.num 0, Cell.num 1]),
   ("Partner", [Cell.str "Yes", Cell.str "No"]),
   ("Dependents", [Cell.str "Yes", Cell.str "No"]),
   ("PhoneService", [Cell.str "Yes", Cell.str "No"]),
   ("MultipleLines", [Cell.str "Yes", Cell.str "No", Cell.str "No phone service"]),
   ("InternetService", [Cell.str "DSL", Cell.str "Fiber optic", Cell.str "No"]),
   ("OnlineSecurity", [Cell.str "Yes", Cell.str "No", Cell.str "No internet service"]),
   ("OnlineBackup", [Cell.str "Yes", Cell.str "No", Cell.str "No internet service"]),
   ("DeviceProtection", [Cell.str "Yes", Cell.str "No", Cell.str "No internet service"]),
   ("TechSupport", [Cell.str "Yes", Cell.str "No", Cell.str "No internet service"]),
   ("StreamingTV", [Cell.str "Yes", Cell.str "No", Cell.str "No internet service"]),
   ("StreamingMovies", [Cell.str "Yes", Cell.str "No", Cell.str "No internet service"]),
   ("Contract", [Cell.str "Month-to-month", Cell.str "One year", Cell.str "Two year"]),
   ("PaperlessBilling", [Cell.str "Yes", Cell.str "No"]),
   ("PaymentMethod", [Cell.str "Electronic check", Cell.str "Mailed check",
      Cell.str "Bank transfer (automatic)", Cell.str "Credit card (automatic)"]),
   ("Churn", [Cell.str "Yes", Cell.str "No"])]

/-- EXPECTED_SCHEMA of validate_data.py: column → expected dtype tag. -/
def EXPECTED_SCHEMA : List (String × String) :=
  [("customerID", "object"),
   ("gender", "object"),
   ("SeniorCitizen", "int64"),
   ("Partner", "object"),
   ("Dependents", "object"),
   ("tenure", "int64"),
   ("PhoneService", "object"),
   ("MultipleLines", "object"),
   ("InternetService", "object"),
   ("OnlineSecurity", "object"),
   ("OnlineBackup", "object"),
   ("DeviceProtection", "object"),
   ("TechSupport", "object"),
   ("StreamingTV", "object"),
   ("StreamingMovies", "object"),
   ("Contract", "object"),
   ("PaperlessBilling", "object"),
   ("PaymentMethod", "object"),
   ("MonthlyCharges", "float64"),
   ("TotalCharges", "float64"),
   ("Churn", "object")]

/-- EXPECTED_RANGES of validate_data.py: numeric column → inclusive
(min, max) range. -/
def EXPECTED_RANGES : List (String × ℚ × ℚ) :=
  [("tenure", 0, 100),
   ("MonthlyCharges", 0, 1000),
   ("TotalCharges", 0, 100000)]

/-- One row of a validation report: the (Check, Status, Details) triple. -/
structure CheckRow where
  check : String
  status : String
  details : String
deriving DecidableEq

/-- Render a rational for a detail message (integers print without
denominator, as Python prints the registry bounds). -/
def ratStr (q : ℚ) : String :=
  if q.den = 1 then toString q.num else toString q.num ++ "/" ++ toString q.den

/-- Render a cell for a detail message. -/
def cellStr : Cell → String
  | Cell.str s => s
  | Cell.num q => ratStr q

/-- The type-check row for one registry column (validate_data.py lines
87-94): dtype tags must be exactly equal; a column absent from the batch
is a failure with detail "Missing column". -/
def typeCheckRow (df : Batch) (col expected : String) : CheckRow :=
  match df.getCol col with
  | some c =>
      let actual := c.dtype
      if actual = expected then
        ⟨"Type - " ++ col, "Pass", col ++ " type " ++ actual ++ " is correct"⟩
      else
        ⟨"Type - " ++ col, "Fail", col ++ " type " ++ actual ++ ", expected " ++ expected⟩
  | none => ⟨"Type - " ++ col, "Fail", "Missing column"⟩

/-- All type-check rows, one per registry column, in registry order. -/
def typeChecks (df : Batch) : List CheckRow :=
  EXPECTED_SCHEMA.map (fun p => typeCheckRow df p.1 p.2)

/-- Number of null cells of a column (`df[col].isnull().sum()`). -/
def countNulls (cells : List (Option Cell)) : Nat :=
  cells.countP (fun v => v.isNone)

/-- The missing-value row for one batch column (validate_data.py lines
97-100): pass iff the column has no null cells. -/
def missingCheckRow (c : Column) : CheckRow :=
  let cnt := countNulls c.cells
  if cnt = 0 then ⟨"Missing - " ++ c.name, "Pass", "No missing values"⟩
  else ⟨"Missing - " ++ c.name, "Fail", toString cnt ++ " missing values"⟩

/-- All missing-value rows, one per column of the batch, in batch order
(`df.isnull().sum().items()`). -/
def missingChecks (df : Batch) : List CheckRow :=
  df.cols.map missingCheckRow

/-- Whether some cell is null (`series.isnull().any()`). -/
def hasNull (cells : List (Option Cell)) : Bool :=
  cells.any (fun v => v.isNone)

/-- Whether some cell value occurs more than once
(`series.duplicated().any()`; pandas counts nulls as duplicates of each
other, hence equality on `Option Cell`). -/
def hasDup : List (Option Cell) → Bool
  | [] => false
  | x :: xs => decide (x ∈ xs) || hasDup xs

/-- The null-identifier row (validate_data.py lines 103-106). -/
def nullIdRow (c : Column) : CheckRow :=
  if hasNull c.cells then ⟨"Integrity - Null ID", "Fail", "Null customerID found"⟩
  else ⟨"Integrity - Null ID", "Pass", "No null customerIDs"⟩

/-- The duplicate-identifier row (validate_data.py lines 108-111). -/
def dupIdRow (c : Column) : CheckRow :=
  if hasDup c.cells then ⟨"Integrity - Duplicates", "Fail", "Duplicate customerID found"⟩
  else ⟨"Integrity - Duplicates", "Pass", "No duplicate customerIDs"⟩

/-- The two integrity rows (validate_data.py lines 103-111). The source
indexes `df["customerID"]` unconditionally, so a batch without that column
raises a `KeyError` instead of producing a report. -/
def integrityChecks (df : Batch) : Except String (List CheckRow) :=
  match df.getCol "customerID" with
  | none => Except.error "KeyError: customerID"
  | some c => Except.ok [nullIdRow c, dupIdRow c]

/-- Whether every cell of a column is a number or a null: elementwise
`<`/`>` against a number raises a TypeError exactly when some cell is a
string. -/
def numericCells (cells : List (Option Cell)) : Bool :=
  cells.all (fun v => match v with
    | some (Cell.str _) => false
    | _ => true)

/-- Count of cells strictly below `low` (`(df[col] < low).sum()`;
a null compares false, so it is never counted). -/
def countBelow (cells : List (Option Cell)) (low : ℚ) : Nat :=
  cells.countP (fun v => match v with
    | some (Cell.num q) => decide (q < low)
    | _ => false)

/-- Count of cells strictly above `high` (`(df[col] > high).sum()`). -/
def countAbove (cells : List (Option Cell)) (high : ℚ) : Nat :=
  cells.countP (fun v => match v with
    | some (Cell.num q) => decide (high < q)
    | _ => false)

/-- The range row for one registry numeric column present in the batch
(validate_data.py lines 114-120): pass iff no cell is strictly below the
minimum and none strictly above the maximum (bounds inclusive). -/
def rangeCheckRow (c : Column) (col : String) (low high : ℚ) : CheckRow :=
  let below := countBelow c.cells low
  let above := countAbove c.cells high
  if below = 0 && above = 0 then
    ⟨"Range - " ++ col, "Pass", "All values within " ++ ratStr low ++ "-" ++ ratStr high⟩
  else
    ⟨"Range - " ++ col, "Fail",
      toString below ++ " below " ++ ratStr low ++ ", " ++ toString above ++ " above " ++ ratStr high⟩

/-- Range rows over a list of registry entries: a column absent from the
batch contributes no row; a present column holding a string cell raises a
TypeError (the comparison against a number). -/
def rangeChecksAux (df : Batch) : List (String × ℚ × ℚ) → Except String (List CheckRow)
  | [] => Except.ok []
  | (col, low, high) :: rest =>
      match df.getCol col with
      | some c =>
          if numericCells c.cells then
            match rangeChecksAux df rest with
            | Except.ok rows => Except.ok (rangeCheckRow c col low high :: rows)
            | Except.error e => Except.error e
          else Except.error ("TypeError comparing column " ++ col)
      | none => rangeChecksAux df rest

/-- All range rows for the registry's numeric columns. -/
def rangeChecks (df : Batch) : Except String (List CheckRow) :=
  rangeChecksAux df EXPECTED_RANGES

/-- Distinct non-null values of a column outside the permitted list
(`set(df[col].dropna().unique()) - set(expected_vals)`). -/
def invalidVals (cells : List (Option Cell)) (expected : List Cell) : List Cell :=
  (cells.filterMap id).dedup.filter (fun v => !expected.contains v)

/-- The categorical-domain row for one registry categorical column
(validate_data.py lines 123-130): pass iff every distinct non-null value is
permitted; a column absent from the batch is a failure with detail
"Column missing". -/
def domainCheckRow (df : Batch) (col : String) (expected : List Cell) : CheckRow :=
  match df.getCol col with
  | some c =>
      let bad := invalidVals c.cells expected
      if bad.isEmpty then ⟨"Domain - " ++ col, "Pass", "All values valid"⟩
      else
        ⟨"Domain - " ++ col, "Fail",
          "Invalid values: " ++ String.intercalate ", " (bad.map cellStr)⟩
  | none => ⟨"Domain - " ++ col, "Fail", "Column missing"⟩

/-- All categorical-domain rows, one per registry categorical column. -/
def domainChecks (df : Batch) : List CheckRow :=
  EXPECTED_CATEGORIES.map (fun p => domainCheckRow df p.1 p.2)

/-- validate (validate_data.py lines 83-132): the report assembled in check
order — type, missing-value, integrity, range, domain. The integrity
block's `df["customerID"]` and the range block's comparisons are the two
places the source can raise; errors surface in the order the source hits
them. -/
def validate (df : Batch) : Except String (List CheckRow) :=
  match integrityChecks df with
  | Except.error e => Except.error e
  | Except.ok integ =>
      match rangeChecks df with
      | Except.error e => Except.error e
      | Except.ok ranges =>
          Except.ok (typeChecks df ++ missingChecks df ++ integ ++ ranges ++ domainChecks df)

/-- A file of the live/static raw-data folders: its name and its creation
time. -/
structure FSFile where
  name : String
  ctime : Nat
deriving DecidableEq

/-- Left fold of Python's `max(files, key=os.path.getctime)`: keeps the
earlier file on ties, replaces only on a strictly newer creation time. -/
def newestOf (f : FSFile) : List FSFile → FSFile
  | [] => f
  | g :: rest => newestOf (if f.ctime < g.ctime then g else f) rest

/-- get_latest_file (validate_data.py lines 135-139): among the files whose
name matches the pattern, the one with the newest creation time; an error
when none match. -/
def get_latest_file (files : List FSFile) (pattern : String → Bool) : Except String FSFile :=
  match files.filter (fun f => pattern f.name) with
  | [] => Except.error "No files found"
  | f :: rest => Except.ok (newestOf f rest)

/-- Dtype of a concatenated column: equal dtypes are kept; int64 joined
with float64 promotes to float64; any other mix falls back to object. -/
def mixDtype (d1 d2 : String) : String :=
  if d1 = d2 then d1
  else if (d1 = "int64" && d2 = "float64") || (d1 = "float64" && d2 = "int64") then "float64"
  else "object"

/-- pd.concat([a, b]) for frames carrying the same column list — the only
shape main produces (its batches all carry the registry schema); pandas'
union-with-NaN alignment for mismatched frames is not modelled, so
theorems about concat carry the column-name-alignment hypothesis. -/
def Batch.concat (a b : Batch) : Batch :=
  ⟨List.zipWith
    (fun ca cb => ⟨ca.name, mixDtype ca.dtype cb.dtype, ca.cells ++ cb.cells⟩)
    a.cols b.cols⟩

/-- An observable side effect of one run of main. -/
inductive Event where
  | validateCall (kind : String) (report : List CheckRow)
  | reportWrite (kind : String) (report : List CheckRow)
  | masterWrite (b : Batch)
  | versionLog (dataset filePath sourceDesc changelog : String)
deriving DecidableEq

/-- The state main reads: the master dataset if its file exists, and the
latest static/live batch if a file matching the pattern exists (`none`
models the discovery failure that get_latest_file raises on). -/
structure PipelineState where
  master : Option Batch
  staticBatch : Option Batch
  liveBatch : Option Batch
deriving DecidableEq

/-- What a completed run of main leaves behind: its event trace and the
content of the master dataset file. -/
structure RunResult where
  events : List Event
  master : Option Batch
deriving DecidableEq

/-- Whether a report has a failing row (`(report_df["Status"] == "Fail").any()`). -/
def hasFail (report : List CheckRow) : Bool :=
  report.any (fun r => decide (r.status = "Fail"))

/-- The version-log entry emitted when the master dataset is first
created (log_data_version call at validate_data.py lines 168-173). -/
def creationLogEv : Event :=
  Event.versionLog "master_combined_raw_data.csv" "MASTER_PATH"
    "static data, live data" "Created master data with static + live"

/-- The version-log entry emitted when the master dataset is updated
(log_data_version call at validate_data.py lines 204-209). -/
def updateLogEv : Event :=
  Event.versionLog "master_combined_raw_data.csv" "MASTER_PATH"
    "static data, live data" "Updated master with new live data"

/-- main (validate_data.py lines 143-209). Branch A (master absent):
concatenate static + live, validate, persist the report, and write the
master plus one version-log entry only when no check failed. Branch B
(master present): validate the live batch alone, persist its report, stop
if it failed; otherwise validate master + live, persist that report, and
overwrite the master plus one version-log entry only when no check
failed. Exceptions (discovery failure, KeyError, TypeError) propagate as
`Except.error`. -/
def main (st : PipelineState) : Except String RunResult :=
  match st.master with
  | none =>
      match st.staticBatch with
      | none => Except.error "No files found"
      | some static_df =>
          match st.liveBatch with
          | none => Except.error "No files found"
          | some live_df =>
              let combined_df := Batch.concat static_df live_df
              match validate combined_df with
              | Except.error e => Except.error e
              | Except.ok report_df =>
                  if hasFail report_df then
                    Except.ok
                      ⟨[Event.validateCall "combined" report_df,
                        Event.reportWrite "combined" report_df], none⟩
                  else
                    Except.ok
                      ⟨[Event.validateCall "combined" report_df,
                        Event.reportWrite "combined" report_df,
                        Event.masterWrite combined_df, creationLogEv],
                       some combined_df⟩
  | some master_df =>
      match st.liveBatch with
      | none => Except.error "No files found"
      | some live_df =>
          match validate live_df with
          | Except.error e => Except.error e
          | Except.ok live_report =>
              if hasFail live_report then
                Except.ok
                  ⟨[Event.validateCall "live" live_report,
                    Event.reportWrite "live" live_report], some master_df⟩
              else
                let new_master := Batch.concat master_df live_df
                match validate new_master with
                | Except.error e => Except.error e
                | Except.ok combined_report =>
                    if hasFail combined_report then
                      Except.ok
                        ⟨[Event.validateCall "live" live_report,
                          Event.reportWrite "live" live_report,
                          Event.validateCall "combined" combined_report,
                          Event.reportWrite "combined" combined_report], some master_df⟩
                    else
                      Except.ok
                        ⟨[Event.validateCall "live" live_report,
                          Event.reportWrite "live" live_report,
                          Event.validateCall "combined" combined_report,
                          Event.reportWrite "combined" combined_report,
                          Event.masterWrite new_master, updateLogEv],
                         some new_master⟩

/-- Whether an `Except` carries a value rather than a raised error. -/
def exceptOk {α : Type} : Except String α → Bool
  | Except.ok _ => true
  | Except.error _ => false

/-- Whether an event is a version-log entry. -/
def isVersionLogEv : Event → Bool
  | Event.versionLog _ _ _ _ => true
  | _ => false

/-- Whether an event is a write of the master dataset file. -/
def isMasterWriteEv : Event → Bool
  | Event.masterWrite _ => true
  | _ => false

/-- Whether an event is a validation of a combined (candidate master)
batch. -/
def isCombinedValidateEv : Event → Bool
  | Event.validateCall k _ => decide (k = "combined")
  | _ => false

/-- The master dataset content after a completed run (`none` when the run
raised). -/
def runMaster (st : PipelineState) : Option (Option Batch) :=
  (main st).toOption.map RunResult.master

/-- The event trace of a completed run (empty when the run raised). -/
def runEvents (st : PipelineState) : List Event :=
  ((main st).toOption.map RunResult.events).getD []

/-- Every validation call in the trace is immediately followed by the
write of the very report it produced — the report reaches disk before the
pass/fail outcome is acted on. -/
def reportsPersisted : List Event → Bool
  | [] => true
  | Event.validateCall k rep :: rest =>
      (match rest with
       | Event.reportWrite k2 rep2 :: _ => decide (k = k2) && decide (rep = rep2)
       | _ => false) && reportsPersisted rest
  | _ :: rest => reportsPersisted rest

/-- A batch fit to be the master dataset: its customerID column exists and
has no duplicate values, and no column holds a null. -/
def masterClean (b : Batch) : Bool :=
  (match b.getCol "customerID" with
   | some c => !hasDup c.cells
   | none => false)
  && b.cols.all (fun c => c.cells.all (fun v => v.isSome))

/-- A one-row batch carrying the full registry column set with valid
values; the customerID is the parameter, so distinct ids give batches that
may be concatenated without duplicate identifiers. -/
def sampleBatch (id : String) : Batch :=
  ⟨[⟨"customerID", "object", [some (Cell.str id)]⟩,
    ⟨"gender", "object", [some (Cell.str "Male")]⟩,
    ⟨"SeniorCitizen", "int64", [some (Cell.num 0)]⟩,
    ⟨"Partner", "object", [some (Cell.str "Yes")]⟩,
    ⟨"Dependents", "object", [some (Cell.str "No")]⟩,
    ⟨"tenure", "int64", [some (Cell.num 5)]⟩,
    ⟨"PhoneService", "object", [some (Cell.str "Yes")]⟩,
    ⟨"MultipleLines", "object", [some (Cell.str "No")]⟩,
    ⟨"InternetService", "object", [some (Cell.str "DSL")]⟩,
    ⟨"OnlineSecurity", "object", [some (Cell.str "No")]⟩,
    ⟨"OnlineBackup", "object", [some (Cell.str "No")]⟩,
    ⟨"DeviceProtection", "object", [some (Cell.str "No")]⟩,
    ⟨"TechSupport", "object", [some (Cell.str "No")]⟩,
    ⟨"StreamingTV", "object", [some (Cell.str "No")]⟩,
    ⟨"StreamingMovies", "object", [some (Cell.str "No")]⟩,
    ⟨"Contract", "object", [some (Cell.str "One year")]⟩,
    ⟨"PaperlessBilling", "object", [some (Cell.str "Yes")]⟩,
    ⟨"PaymentMethod", "object", [some (Cell.str "Mailed check")]⟩,
    ⟨"MonthlyCharges", "float64", [some (Cell.num 50)]⟩,
    ⟨"TotalCharges", "float64", [some (Cell.num 500)]⟩,
    ⟨"Churn", "object", [some (Cell.str "No")]⟩]⟩

/-- A batch carrying only the identifier column: validate produces a
report for it (with many failing rows), exercising the fail paths. -/
def onlyIdBatch : Batch :=
  ⟨[⟨"customerID", "object", [some (Cell.str "L1")]⟩]⟩

/-- Rank of a report row's check kind, read off the first character of its
check name (Type, Missing, Integrity, Range, Domain) — used to state that
the report keeps the fixed section order. -/
def kindRank (r : CheckRow) : Nat :=
  match r.check.data with
  | [] => 5
  | c :: _ =>
      if c = 'T' then 0
      else if c = 'M' then 1
      else if c = 'I' then 2
      else if c = 'R' then 3
      else if c = 'D' then 4
      else 5

/-- Whether every registry numeric column present in the batch holds only
numbers and nulls — exactly the condition under which the source's range
comparisons do not raise a TypeError. -/
def rangeColsNumeric (df : Batch) : Bool :=
  EXPECTED_RANGES.all (fun p =>
    match df.getCol p.1 with
    | some c => numericCells c.cells
    | none => true)

/-- The report of a batch whose validation completed (junk when it raised). -/
def repOf (df : Batch) : List CheckRow :=
  (validate df).toOption.getD []

/-- A batch without the identifier column: the source raises a KeyError on
it instead of reporting. -/
def noIdBatch : Batch :=
  ⟨[⟨"gender", "object", [some (Cell.str "Male")]⟩]⟩

/-- Another batch without the identifier column, used to exhibit that no
report (hence no failure row) is produced for it. -/
def partnerOnlyBatch : Batch :=
  ⟨[⟨"Partner", "object", [some (Cell.str "Yes")]⟩]⟩

/-- A tenure column sitting exactly on the registry bounds. -/
def tenureCol : Column :=
  ⟨"tenure", "int64", [some (Cell.num 0), some (Cell.num 100)]⟩

/-- A batch whose tenure column sits exactly on the registry bounds. -/
def tenureBoundaryBatch : Batch :=
  ⟨[⟨"customerID", "object", [some (Cell.str "A"), some (Cell.str "B")]⟩, tenureCol]⟩

/-- A folder listing for exercising get_latest_file. -/
def sampleFiles : List FSFile :=
  [⟨"2024-01-01 live_data.csv", 5⟩, ⟨"2024-02-01 live_data.csv", 9⟩, ⟨"note.txt", 99⟩]

/-- The live-data naming pattern over that listing. -/
def livePattern (n : String) : Bool :=
  decide (n ≠ "note.txt")

/-- A pattern nothing in the listing matches. -/
def nothingPattern (n : String) : Bool :=
  decide (n = "absent.csv")

/-- Report of the identifier-only live batch (it fails many checks). -/
def c1Lrep : List CheckRow :=
  repOf onlyIdBatch

/-- Present-master state fed an invalid live batch. -/
def c1St : PipelineState :=
  ⟨some (sampleBatch "M1"), none, some onlyIdBatch⟩

/-- The run result of that state. -/
def c1R : RunResult :=
  ⟨[Event.validateCall "live" c1Lrep, Event.reportWrite "live" c1Lrep], some (sampleBatch "M1")⟩

/-- Present-master state fed a valid live batch. -/
def c7St : PipelineState :=
  ⟨some (sampleBatch "M7"), none, some (sampleBatch "L7")⟩

/-- The run result of that state. -/
def c7R : RunResult :=
  (main c7St).toOption.getD ⟨[], none⟩

/-- Absent-master state fed valid static and live batches. -/
def c10St : PipelineState :=
  ⟨none, some (sampleBatch "S1"), some (sampleBatch "L1")⟩

/-- The run result of that state. -/
def c10R : RunResult :=
  (main c10St).toOption.getD ⟨[], none⟩

/-- Absent-master state for the first-creation scenario. -/
def c8St : PipelineState :=
  ⟨none, some (sampleBatch "S8"), some (sampleBatch "L8")⟩

/-- The run result of that state. -/
def c8R : RunResult :=
  (main c8St).toOption.getD ⟨[], none⟩

/-- The combined report of that scenario. -/
def c8Rep : List CheckRow :=
  repOf ((sampleBatch "S8").concat (sampleBatch "L8"))

/-- The live batch of the re-run scenario. -/
def c3Live : Batch :=
  sampleBatch "L3"

/-- The initial master of the re-run scenario. -/
def c3M0 : Batch :=
  sampleBatch "M3"

/-- The master produced by the first (successful) merge of the live batch. -/
def c3M1 : Batch :=
  c3M0.concat c3Live

/-- The first run's state: initial master plus the live batch. -/
def c3St1 : PipelineState :=
  ⟨some c3M0, none, some c3Live⟩

/-- The second run's state: the merged master plus the same live batch. -/
def c3St2 : PipelineState :=
  ⟨some c3M1, none, some c3Live⟩

/-- The identifier column of the live batch in the re-run scenario. -/
def c3Lc : Column :=
  ⟨"customerID", "object", [some (Cell.str "L3")]⟩

/-- The identifier column of the merged master in the re-run scenario. -/
def c3Mc : Column :=
  ⟨"customerID", "object", [some (Cell.str "M3"), some (Cell.str "L3")]⟩

/-- The second run's result. -/
def c3R2 : RunResult :=
  (main c3St2).toOption.getD ⟨[], none⟩

/-- The live batch's (all-pass) report in the re-run scenario. -/
def c3Lrep : List CheckRow :=
  repOf c3Live

/-- Convenience wrapper around rangeColsNumeric restricted to an explicit
registry fragment, for induction. -/
def rangeColsNumericOn (df : Batch) (l : List (String × ℚ × ℚ)) : Bool :=
  l.all (fun p =>
    match df.getCol p.1 with
    | some c => numericCells c.cells
    | none => true)

lemma headChar_append (p s : String) (c : Char) (h : p.data.head? = some c) :
    (p ++ s).data.head? = some c := by
  rw [String.data_append]
  cases hp : p.data with
  | nil => rw [hp] at h; simp at h
  | cons a l =>
      rw [hp] at h
      simp only [List.head?_cons] at h
      simpa using h

lemma ne_of_headChar {s t : String} {c d : Char} (hs : s.data.head? = some c)
    (ht : t.data.head? = some d) (hcd : c ≠ d) : s ≠ t := by
  intro hst
  rw [hst, ht] at hs
  exact hcd (Option.some.inj hs).symm

lemma string_append_left_cancel {p x y : String} (h : p ++ x = p ++ y) : x = y := by
  apply String.ext
  have h2 := congrArg String.data h
  rw [String.data_append, String.data_append] at h2
  exact List.append_cancel_left h2

lemma typeCheckRow_check (df : Batch) (col expected : String) :
    (typeCheckRow df col expected).check = "Type - " ++ col := by
  unfold typeCheckRow
  cases df.getCol col with
  | none => rfl
  | some c =>
      dsimp only
      split <;> rfl

lemma missingCheckRow_check (c : Column) :
    (missingCheckRow c).check = "Missing - " ++ c.name := by
  unfold missingCheckRow
  dsimp only
  split <;> rfl

lemma missingCheckRow_status (c : Column) :
    (missingCheckRow c).status = if countNulls c.cells = 0 then "Pass" else "Fail" := by
  unfold missingCheckRow
  dsimp only
  split <;> simp_all

lemma rangeCheckRow_check (c : Column) (col : String) (low high : ℚ) :
    (rangeCheckRow c col low high).check = "Range - " ++ col := by
  unfold rangeCheckRow
  dsimp only
  split <;> rfl

lemma rangeCheckRow_status (c : Column) (col : String) (low high : ℚ) :
    (rangeCheckRow c col low high).status =
      if countBelow c.cells low = 0 && countAbove c.cells high = 0 then "Pass" else "Fail" := by
  unfold rangeCheckRow
  dsimp only
  split <;> simp_all

lemma domainCheckRow_check (df : Batch) (col : String) (expected : List Cell) :
    (domainCheckRow df col expected).check = "Domain - " ++ col := by
  unfold domainCheckRow
  cases df.getCol col with
  | none => rfl
  | some c =>
      dsimp only
      split <;> rfl

lemma nullIdRow_check (c : Column) : (nullIdRow c).check = "Integrity - Null ID" := by
  unfold nullIdRow
  split <;> rfl

lemma nullIdRow_status (c : Column) :
    (nullIdRow c).status = if hasNull c.cells then "Fail" else "Pass" := by
  unfold nullIdRow
  split <;> simp_all

lemma dupIdRow_check (c : Column) : (dupIdRow c).check = "Integrity - Duplicates" := by
  unfold dupIdRow
  split <;> rfl

lemma dupIdRow_status (c : Column) :
    (dupIdRow c).status = if hasDup c.cells then "Fail" else "Pass" := by
  unfold dupIdRow
  split <;> simp_all

lemma kindRank_of_head {r : CheckRow} {c : Char} {rest : List Char}
    (h : r.check.data = c :: rest) :
    kindRank r = if c = 'T' then 0 else if c = 'M' then 1 else if c = 'I' then 2
      else if c = 'R' then 3 else if c = 'D' then 4 else 5 := by
  unfold kindRank
  rw [h]

lemma kindRank_typeRow (df : Batch) (col expected : String) :
    kindRank (typeCheckRow df col expected) = 0 := by
  have h : (typeCheckRow df col expected).check.data = 'T' :: ("ype - " ++ col).data := by
    rw [typeCheckRow_check]; rfl
  rw [kindRank_of_head h]
  rfl

lemma kindRank_missingRow (c : Column) : kindRank (missingCheckRow c) = 1 := by
  have h : (missingCheckRow c).check.data = 'M' :: ("issing - " ++ c.name).data := by
    rw [missingCheckRow_check]; rfl
  rw [kindRank_of_head h]
  rfl

lemma kindRank_nullIdRow (c : Column) : kindRank (nullIdRow c) = 2 := by
  have h : (nullIdRow c).check.data = 'I' :: "ntegrity - Null ID".data := by
    rw [nullIdRow_check]
  rw [kindRank_of_head h]
  rfl

lemma kindRank_dupIdRow (c : Column) : kindRank (dupIdRow c) = 2 := by
  have h : (dupIdRow c).check.data = 'I' :: "ntegrity - Duplicates".data := by
    rw [dupIdRow_check]
  rw [kindRank_of_head h]
  rfl

lemma kindRank_rangeRow (c : Column) (col : String) (low high : ℚ) :
    kindRank (rangeCheckRow c col low high) = 3 := by
  have h : (rangeCheckRow c col low high).check.data = 'R' :: ("ange - " ++ col).data := by
    rw [rangeCheckRow_check]; rfl
  rw [kindRank_of_head h]
  rfl

lemma kindRank_domainRow (df : Batch) (col : String) (expected : List Cell) :
    kindRank (domainCheckRow df col expected) = 4 := by
  have h : (domainCheckRow df col expected).check.data = 'D' :: ("omain - " ++ col).data := by
    rw [domainCheckRow_check]; rfl
  rw [kindRank_of_head h]
  rfl

lemma validate_ok_elim {df : Batch} {rep : List CheckRow} (h : validate df = Except.ok rep) :
    ∃ c, df.getCol "customerID" = some c ∧
      ∃ ranges, rangeChecks df = Except.ok ranges ∧
        rep = typeChecks df ++ missingChecks df ++ [nullIdRow c, dupIdRow c] ++ ranges ++
          domainChecks df := by
  unfold validate integrityChecks at h
  cases hc : df.getCol "customerID" with
  | none => rw [hc] at h; cases h
  | some c =>
      rw [hc] at h
      cases hr : rangeChecks df with
      | error e => rw [hr] at h; cases h
      | ok ranges =>
          rw [hr] at h
          exact ⟨c, rfl, ranges, rfl, (Except.ok.inj h).symm⟩

lemma validate_error_of_no_id {df : Batch} (h : df.getCol "customerID" = none) :
    validate df = Except.error "KeyError: customerID" := by
  unfold validate integrityChecks
  rw [h]

lemma rangeChecksAux_ok {df : Batch} :
    ∀ {l : List (String × ℚ × ℚ)}, rangeColsNumericOn df l = true →
      ∃ rows, rangeChecksAux df l = Except.ok rows := by
  intro l
  induction l with
  | nil => exact fun _ => ⟨[], rfl⟩
  | cons p rest ih =>
      intro hall
      obtain ⟨col, low, high⟩ := p
      unfold rangeColsNumericOn at hall
      rw [List.all_cons] at hall
      rw [Bool.and_eq_true] at hall
      obtain ⟨hhead, htail⟩ := hall
      obtain ⟨rows, hrows⟩ := ih htail
      unfold rangeChecksAux
      cases hg : df.getCol col with
      | none => exact ⟨rows, hrows⟩
      | some c =>
          rw [hg] at hhead
          dsimp only at hhead ⊢
          rw [hhead, hrows]
          exact ⟨rangeCheckRow c col low high :: rows, by simp⟩

lemma rangeChecksAux_mem {df : Batch} {c : Column} {col : String} {low high : ℚ} :
    ∀ {l : List (String × ℚ × ℚ)} {rows : List CheckRow},
      rangeChecksAux df l = Except.ok rows → (col, low, high) ∈ l →
      df.getCol col = some c → rangeCheckRow c col low high ∈ rows := by
  intro l
  induction l with
  | nil => intro rows _ hm; cases hm
  | cons p rest ih =>
      intro rows hok hm hg
      obtain ⟨col2, low2, high2⟩ := p
      unfold rangeChecksAux at hok
      rcases List.mem_cons.mp hm with heq | htail
      · simp only [Prod.mk.injEq] at heq
        obtain ⟨rfl, rfl, rfl⟩ := heq
        rw [hg] at hok
        dsimp only at hok
        cases hnum : numericCells c.cells with
        | false => rw [hnum] at hok; simp at hok
        | true =>
            rw [hnum] at hok
            simp only [if_true] at hok
            cases hrest : rangeChecksAux df rest with
            | error e => rw [hrest] at hok; cases hok
            | ok rows2 =>
                rw [hrest] at hok
                rw [← Except.ok.inj hok]
                exact List.mem_cons_self _ _
      · cases hg2 : df.getCol col2 with
        | none =>
            rw [hg2] at hok
            exact ih hok htail hg
        | some c2 =>
            rw [hg2] at hok
            dsimp only at hok
            cases hnum : numericCells c2.cells with
            | false => rw [hnum] at hok; simp at hok
            | true =>
                rw [hnum] at hok
                simp only [if_true] at hok
                cases hrest : rangeChecksAux df rest with
                | error e => rw [hrest] at hok; cases hok
                | ok rows2 =>
                    rw [hrest] at hok
                    rw [← Except.ok.inj hok]
                    exact List.mem_cons_of_mem _ (ih hrest htail hg)

lemma hasFail_false_iff {rep : List CheckRow} :
    hasFail rep = false ↔ ∀ r ∈ rep, r.status ≠ "Fail" := by
  unfold hasFail
  rw [List.any_eq_false]
  simp

lemma getCol_name {df : Batch} {n : String} {c : Column} (h : df.getCol n = some c) :
    c.name = n ∧ c ∈ df.cols := by
  unfold Batch.getCol at h
  have h1 := List.find?_some h
  simp only [decide_eq_true_eq] at h1
  exact ⟨h1, List.mem_of_find?_eq_some h⟩

lemma dupIdRow_mem {df : Batch} {rep : List CheckRow} {c : Column}
    (hrep : validate df = Except.ok rep) (hc : df.getCol "customerID" = some c) :
    dupIdRow c ∈ rep := by
  obtain ⟨c2, hc2, ranges, hr, hrepeq⟩ := validate_ok_elim hrep
  rw [hc] at hc2
  obtain rfl := Option.some.inj hc2
  rw [hrepeq]
  simp [List.mem_append]

lemma missingRow_mem {df : Batch} {rep : List CheckRow} {cc : Column}
    (hrep : validate df = Except.ok rep) (hcc : cc ∈ df.cols) :
    missingCheckRow cc ∈ rep := by
  obtain ⟨c, hc, ranges, hr, hrepeq⟩ := validate_ok_elim hrep
  rw [hrepeq]
  have hm : missingCheckRow cc ∈ missingChecks df := List.mem_map_of_mem _ hcc
  simp only [List.mem_append]
  tauto

lemma allpass_no_dup {df : Batch} {rep : List CheckRow} {c : Column}
    (hrep : validate df = Except.ok rep) (hpass : hasFail rep = false)
    (hc : df.getCol "customerID" = some c) : hasDup c.cells = false := by
  have hmem := dupIdRow_mem hrep hc
  have hne := hasFail_false_iff.mp hpass _ hmem
  rw [dupIdRow_status] at hne
  cases h : hasDup c.cells
  · rfl
  · rw [h] at hne; simp at hne

lemma allpass_null_free {df : Batch} {rep : List CheckRow}
    (hrep : validate df = Except.ok rep) (hpass : hasFail rep = false) :
    ∀ cc ∈ df.cols, countNulls cc.cells = 0 := by
  intro cc hcc
  have hmem := missingRow_mem hrep hcc
  have hne := hasFail_false_iff.mp hpass _ hmem
  rw [missingCheckRow_status] at hne
  by_cases h : countNulls cc.cells = 0
  · exact h
  · rw [if_neg h] at hne; simp at hne

lemma allpass_masterClean {df : Batch} {rep : List CheckRow}
    (hrep : validate df = Except.ok rep) (hpass : hasFail rep = false) :
    masterClean df = true := by
  obtain ⟨c, hc, _⟩ := validate_ok_elim hrep
  unfold masterClean
  rw [hc]
  dsimp only
  rw [allpass_no_dup hrep hpass hc]
  simp only [Bool.not_false, Bool.true_and]
  rw [List.all_eq_true]
  intro cc hcc
  rw [List.all_eq_true]
  intro v hv
  have h0 := allpass_null_free hrep hpass cc hcc
  unfold countNulls at h0
  rw [List.countP_eq_zero] at h0
  have hnv := h0 v hv
  cases v
  · simp at hnv
  · simp

lemma hasDup_append_of_mem {v : Option Cell} {l1 l2 : List (Option Cell)}
    (h1 : v ∈ l1) (h2 : v ∈ l2) : hasDup (l1 ++ l2) = true := by
  induction l1 with
  | nil => cases h1
  | cons x xs ih =>
      rw [List.cons_append]
      unfold hasDup
      rcases List.mem_cons.mp h1 with rfl | hx
      · have hm : v ∈ xs ++ l2 := List.mem_append.mpr (Or.inr h2)
        rw [decide_eq_true hm]
        simp
      · rw [ih hx]
        simp

lemma find?_concat_cols :
    ∀ (xs ys : List Column) (n : String) (ca cb : Column),
      xs.map Column.name = ys.map Column.name →
      xs.find? (fun c => decide (c.name = n)) = some ca →
      ys.find? (fun c => decide (c.name = n)) = some cb →
      (List.zipWith (fun x y => Column.mk x.name (mixDtype x.dtype y.dtype) (x.cells ++ y.cells))
          xs ys).find? (fun c => decide (c.name = n)) =
        some (Column.mk ca.name (mixDtype ca.dtype cb.dtype) (ca.cells ++ cb.cells)) := by
  intro xs
  induction xs with
  | nil => intro ys n ca cb hn hca hcb; cases hca
  | cons x xs ih =>
      intro ys n ca cb hn hca hcb
      cases ys with
      | nil => cases hcb
      | cons y ys =>
          simp only [List.map_cons] at hn
          injection hn with h1 h2
          rw [List.zipWith_cons_cons]
          by_cases hx : x.name = n
          · rw [List.find?_cons_of_pos _ (by simp [hx])] at hca
            rw [List.find?_cons_of_pos _ (by simp [← h1, hx])] at hcb
            obtain rfl := Option.some.inj hca
            obtain rfl := Option.some.inj hcb
            rw [List.find?_cons_of_pos _ (by simp [hx])]
          · rw [List.find?_cons_of_neg _ (by simp [hx])] at hca
            rw [List.find?_cons_of_neg _ (by simp [← h1, hx])] at hcb
            rw [List.find?_cons_of_neg _ (by simp [hx])]
            exact ih ys n ca cb h2 hca hcb

lemma getCol_concat {a b : Batch} (hn : a.cols.map Column.name = b.cols.map Column.name)
    {n : String} {ca cb : Column} (ha : a.getCol n = some ca) (hb : b.getCol n = some cb) :
    (a.concat b).getCol n = some ⟨ca.name, mixDtype ca.dtype cb.dtype, ca.cells ++ cb.cells⟩ :=
  find?_concat_cols a.cols b.cols n ca cb hn ha hb

lemma nrows_concat {a b : Batch} (hn : a.cols.map Column.name = b.cols.map Column.name)
    (hne : a.cols ≠ []) : (a.concat b).nrows = a.nrows + b.nrows := by
  cases ha : a.cols with
  | nil => exact absurd ha hne
  | cons x xs =>
      cases hb : b.cols with
      | nil => rw [ha, hb] at hn; simp at hn
      | cons y ys =>
          unfold Batch.concat Batch.nrows
          rw [ha, hb]
          rw [List.zipWith_cons_cons]
          dsimp only
          exact List.length_append _ _

lemma cols_ne_nil_of_getCol {df : Batch} {n : String} {c : Column}
    (h : df.getCol n = some c) : df.cols ≠ [] := by
  intro hnil
  unfold Batch.getCol at h
  rw [hnil] at h
  cases h

lemma countP_fst_eq_one {β : Type} :
    ∀ (l : List (String × β)) (c : String), (l.map Prod.fst).Nodup → c ∈ l.map Prod.fst →
      l.countP (fun p => decide (p.1 = c)) = 1 := by
  intro l
  induction l with
  | nil => intro c _ hc; simp at hc
  | cons x xs ih =>
      intro c hnd hc
      simp only [List.map_cons, List.nodup_cons] at hnd
      obtain ⟨hx, hnd2⟩ := hnd
      simp only [List.map_cons, List.mem_cons] at hc
      rcases hc with heq | htail
      · have hz : xs.countP (fun p => decide (p.1 = c)) = 0 := by
          rw [List.countP_eq_zero]
          intro p hp
          simp only [decide_eq_true_eq]
          intro hpc
          have hm : p.1 ∈ xs.map Prod.fst := List.mem_map_of_mem _ hp
          rw [hpc, heq] at hm
          exact hx hm
        rw [List.countP_cons, hz]
        simp [heq]
      · have hne : ¬ (x.1 = c) := fun h => hx (h ▸ htail)
        rw [List.countP_cons, ih c hnd2 htail]
        simp [hne]

lemma countP_name_eq_one :
    ∀ (l : List Column), (l.map Column.name).Nodup → ∀ c ∈ l,
      l.countP (fun c2 => decide (c2.name = c.name)) = 1 := by
  intro l
  induction l with
  | nil => intro _ c hc; cases hc
  | cons x xs ih =>
      intro hnd c hc
      simp only [List.map_cons, List.nodup_cons] at hnd
      obtain ⟨hx, hnd2⟩ := hnd
      rcases List.mem_cons.mp hc with rfl | htail
      · have hz : xs.countP (fun c2 => decide (c2.name = c.name)) = 0 := by
          rw [List.countP_eq_zero]
          intro p hp
          simp only [decide_eq_true_eq]
          intro hpc
          have hm : p.name ∈ xs.map Column.name := List.mem_map_of_mem _ hp
          rw [hpc] at hm
          exact hx hm
        rw [List.countP_cons, hz]
        simp
      · have hne : ¬ (x.name = c.name) := by
          intro h
          apply hx
          rw [h]
          exact List.mem_map_of_mem _ htail
        rw [List.countP_cons, ih hnd2 c htail]
        simp [hne]

lemma main_branchA_eq {s l : Batch} {rep : List CheckRow}
    (hv : validate (s.concat l) = Except.ok rep) :
    main ⟨none, some s, some l⟩ =
      (if hasFail rep then
        Except.ok ⟨[Event.validateCall "combined" rep, Event.reportWrite "combined" rep], none⟩
      else
        Except.ok ⟨[Event.validateCall "combined" rep, Event.reportWrite "combined" rep,
          Event.masterWrite (s.concat l), creationLogEv], some (s.concat l)⟩) := by
  unfold main
  dsimp only
  rw [hv]

lemma main_branchA_error {s l : Batch} {e : String}
    (hv : validate (s.concat l) = Except.error e) :
    main ⟨none, some s, some l⟩ = Except.error e := by
  unfold main
  dsimp only
  rw [hv]

lemma main_branchB_liveFail {m l : Batch} {sb : Option Batch} {lrep : List CheckRow}
    (hv : validate l = Except.ok lrep) (hf : hasFail lrep = true) :
    main ⟨some m, sb, some l⟩ =
      Except.ok ⟨[Event.validateCall "live" lrep, Event.reportWrite "live" lrep], some m⟩ := by
  unfold main
  dsimp only
  rw [hv]
  dsimp only
  rw [hf]
  simp

lemma main_branchB_afterLive {m l : Batch} {sb : Option Batch} {lrep : List CheckRow}
    (hv : validate l = Except.ok lrep) (hf : hasFail lrep = false) :
    main ⟨some m, sb, some l⟩ =
      (match validate (m.concat l) with
       | Except.error e => Except.error e
       | Except.ok crep =>
           if hasFail crep then
             Except.ok ⟨[Event.validateCall "live" lrep, Event.reportWrite "live" lrep,
               Event.validateCall "combined" crep, Event.reportWrite "combined" crep], some m⟩
           else
             Except.ok ⟨[Event.validateCall "live" lrep, Event.reportWrite "live" lrep,
               Event.validateCall "combined" crep, Event.reportWrite "combined" crep,
               Event.masterWrite (m.concat l), updateLogEv], some (m.concat l)⟩) := by
  unfold main
  dsimp only
  rw [hv]
  dsimp only
  rw [hf]
  simp

lemma main_ok_cases {st : PipelineState} {r : RunResult} (h : main st = Except.ok r) :
    (∃ s l rep, st.master = none ∧ st.staticBatch = some s ∧ st.liveBatch = some l ∧
       validate (s.concat l) = Except.ok rep ∧
       ((hasFail rep = true ∧
           r = ⟨[Event.validateCall "combined" rep, Event.reportWrite "combined" rep], none⟩) ∨
        (hasFail rep = false ∧
           r = ⟨[Event.validateCall "combined" rep, Event.reportWrite "combined" rep,
             Event.masterWrite (s.concat l), creationLogEv], some (s.concat l)⟩))) ∨
    (∃ m l lrep, st.master = some m ∧ st.liveBatch = some l ∧ validate l = Except.ok lrep ∧
       ((hasFail lrep = true ∧
           r = ⟨[Event.validateCall "live" lrep, Event.reportWrite "live" lrep], some m⟩) ∨
        (∃ crep, hasFail lrep = false ∧ validate (m.concat l) = Except.ok crep ∧
           ((hasFail crep = true ∧
               r = ⟨[Event.validateCall "live" lrep, Event.reportWrite "live" lrep,
                 Event.validateCall "combined" crep, Event.reportWrite "combined" crep],
                 some m⟩) ∨
            (hasFail crep = false ∧
               r = ⟨[Event.validateCall "live" lrep, Event.reportWrite "live" lrep,
                 Event.validateCall "combined" crep, Event.reportWrite "combined" crep,
                 Event.masterWrite (m.concat l), updateLogEv], some (m.concat l)⟩))))) := by
  obtain ⟨mast, sb, lb⟩ := st
  cases mast with
  | none =>
      cases sb with
      | none => exact Except.noConfusion h
      | some s =>
          cases lb with
          | none => exact Except.noConfusion h
          | some l =>
              left
              cases hv : validate (s.concat l) with
              | error e =>
                  rw [main_branchA_error hv] at h
                  exact Except.noConfusion h
              | ok rep =>
                  refine ⟨s, l, rep, rfl, rfl, rfl, hv, ?_⟩
                  rw [main_branchA_eq hv] at h
                  cases hf : hasFail rep with
                  | true =>
                      rw [hf] at h
                      simp only [if_true] at h
                      exact Or.inl ⟨rfl, (Except.ok.inj h).symm⟩
                  | false =>
                      rw [hf] at h
                      simp only [Bool.false_eq_true, if_false] at h
                      exact Or.inr ⟨rfl, (Except.ok.inj h).symm⟩
  | some m =>
      cases lb with
      | none => exact Except.noConfusion h
      | some l =>
          right
          cases hv : validate l with
          | error e =>
              unfold main at h
              dsimp only at h
              rw [hv] at h
              exact Except.noConfusion h
          | ok lrep =>
              refine ⟨m, l, lrep, rfl, rfl, hv, ?_⟩
              cases hf : hasFail lrep with
              | true =>
                  rw [main_branchB_liveFail hv hf] at h
                  exact Or.inl ⟨rfl, (Except.ok.inj h).symm⟩
              | false =>
                  rw [main_branchB_afterLive hv hf] at h
                  cases hv2 : validate (m.concat l) with
                  | error e =>
                      rw [hv2] at h
                      exact Except.noConfusion h
                  | ok crep =>
                      rw [hv2] at h
                      dsimp only at h
                      refine Or.inr ⟨crep, rfl, rfl, ?_⟩
                      cases hf2 : hasFail crep with
                      | true =>
                          rw [hf2] at h
                          simp only [if_true] at h
                          exact Or.inl ⟨rfl, (Except.ok.inj h).symm⟩
                      | false =>
                          rw [hf2] at h
                          simp only [Bool.false_eq_true, if_false] at h
                          exact Or.inr ⟨rfl, (Except.ok.inj h).symm⟩

/-- C1: for every run of the merge entry point main in which a master
dataset is present and the live batch's validation report contains at
least one Fail row, the master dataset is left unchanged, no version-log
entry is emitted, and the combined (master + live) validation is never
attempted — the trace holds exactly the live validation and its report
write. -/
theorem live_fail_leaves_master_untouched
    (st : PipelineState) (m live : Batch) (lrep : List CheckRow) (r : RunResult)
    (hm : st.master = some m) (hl : st.liveBatch = some live)
    (hv : validate live = Except.ok lrep) (hf : hasFail lrep = true)
    (hrun : main st = Except.ok r) :
    r.master = some m ∧
      r.events.countP isVersionLogEv = 0 ∧
      r.events.countP isCombinedValidateEv = 0 ∧
      r.events = [Event.validateCall "live" lrep, Event.reportWrite "live" lrep] := by
  obtain ⟨mast, sb, lb⟩ := st
  dsimp only at hm hl
  subst hm
  subst hl
  rw [main_branchB_liveFail hv hf] at hrun
  obtain rfl := Except.ok.inj hrun
  refine ⟨rfl, ?_, ?_, rfl⟩
  · simp [isVersionLogEv]
  · simp [isCombinedValidateEv]

/-- Witness for C1 at a concrete present-master state with a failing live
batch. -/
theorem live_fail_leaves_master_untouched_witness :
    c1R.master = some (sampleBatch "M1") ∧
      c1R.events.countP isVersionLogEv = 0 ∧
      c1R.events.countP isCombinedValidateEv = 0 ∧
      c1R.events = [Event.validateCall "live" c1Lrep, Event.reportWrite "live" c1Lrep] :=
  live_fail_leaves_master_untouched c1St (sampleBatch "M1") onlyIdBatch c1Lrep c1R
    rfl rfl rfl (by decide) rfl

/-- C7: every validation call performed by main persists its report before
the pass/fail outcome is acted on — in both branches a report-write event
immediately follows each validate call, whether the validation passed or
failed. -/
theorem reports_always_persisted (st : PipelineState) (r : RunResult)
    (hrun : main st = Except.ok r) : reportsPersisted r.events = true := by
  rcases main_ok_cases hrun with ⟨s, l, rep, _, _, _, _, hcase⟩ | ⟨m, l, lrep, _, _, _, hcase⟩
  · rcases hcase with ⟨_, rfl⟩ | ⟨_, rfl⟩ <;> simp [reportsPersisted]
  · rcases hcase with ⟨_, rfl⟩ | ⟨crep, _, _, hcase2⟩
    · simp [reportsPersisted]
    · rcases hcase2 with ⟨_, rfl⟩ | ⟨_, rfl⟩ <;> simp [reportsPersisted]

/-- Witness for C7 at a concrete present-master state whose run performs
two validations and writes both reports. -/
theorem reports_always_persisted_witness : reportsPersisted c7R.events = true :=
  reports_always_persisted c7St c7R rfl

/-- C10: every master dataset main writes (in either branch) is free of
duplicate customerID values and of nulls in every column, because the
write is gated on the combined report having no Fail row and that report
contains the missing-value and duplicate-identifier checks. -/
theorem master_write_clean (st : PipelineState) (r : RunResult) (b : Batch)
    (hrun : main st = Except.ok r) (hw : Event.masterWrite b ∈ r.events) :
    masterClean b = true := by
  rcases main_ok_cases hrun with ⟨s, l, rep, _, _, _, hv, hcase⟩ | ⟨m, l, lrep, _, _, hv, hcase⟩
  · rcases hcase with ⟨hf, rfl⟩ | ⟨hf, rfl⟩
    · simp [creationLogEv] at hw
    · simp [creationLogEv] at hw
      subst hw
      exact allpass_masterClean hv hf
  · rcases hcase with ⟨hf, rfl⟩ | ⟨crep, hf, hv2, hcase2⟩
    · simp at hw
    · rcases hcase2 with ⟨hf2, rfl⟩ | ⟨hf2, rfl⟩
      · simp [updateLogEv] at hw
      · simp [updateLogEv] at hw
        subst hw
        exact allpass_masterClean hv2 hf2

/-- Witness for C10 at a concrete absent-master run that writes the
master. -/
theorem master_write_clean_witness :
    masterClean ((sampleBatch "S1").concat (sampleBatch "L1")) = true :=
  master_write_clean c10St c10R ((sampleBatch "S1").concat (sampleBatch "L1"))
    rfl (by decide)

lemma newestOf_spec :
    ∀ (rest : List FSFile) (f : FSFile),
      (newestOf f rest = f ∨ newestOf f rest ∈ rest) ∧
        f.ctime ≤ (newestOf f rest).ctime ∧
        ∀ g ∈ rest, g.ctime ≤ (newestOf f rest).ctime := by
  intro rest
  induction rest with
  | nil =>
      intro f
      exact ⟨Or.inl rfl, le_refl _, by intro g hg; cases hg⟩
  | cons x xs ih =>
      intro f
      unfold newestOf
      by_cases h : f.ctime < x.ctime
      · rw [if_pos h]
        obtain ⟨hmem, hself, hall⟩ := ih x
        refine ⟨?_, le_trans (le_of_lt h) hself, ?_⟩
        · rcases hmem with he | hm
          · refine Or.inr ?_
            rw [he]
            exact List.mem_cons_self x xs
          · exact Or.inr (List.mem_cons_of_mem _ hm)
        · intro g hg
          rcases List.mem_cons.mp hg with rfl | hgm
          · exact hself
          · exact hall g hgm
      · rw [if_neg h]
        obtain ⟨hmem, hself, hall⟩ := ih f
        refine ⟨?_, hself, ?_⟩
        · rcases hmem with he | hm
          · exact Or.inl he
          · exact Or.inr (List.mem_cons_of_mem _ hm)
        · intro g hg
          rcases List.mem_cons.mp hg with rfl | hgm
          · exact le_trans (le_of_not_lt h) hself
          · exact hall g hgm

/-- C9: get_latest_file raises the "no files found" error exactly on an
empty match set, and otherwise returns a file of the folder that matches
the pattern and whose creation time is at least that of every matching
file. -/
theorem get_latest_file_spec (files : List FSFile) (pattern : String → Bool) :
    (files.filter (fun f => pattern f.name) = [] →
       get_latest_file files pattern = Except.error "No files found") ∧
    (∀ g, get_latest_file files pattern = Except.ok g →
       g ∈ files ∧ pattern g.name = true ∧
         ∀ f ∈ files, pattern f.name = true → f.ctime ≤ g.ctime) ∧
    (files.filter (fun f => pattern f.name) ≠ [] →
       exceptOk (get_latest_file files pattern) = true) := by
  unfold get_latest_file
  cases hfl : files.filter (fun f => pattern f.name) with
  | nil =>
      refine ⟨?_, ?_, ?_⟩
      · intro _
        rfl
      · intro g hok
        exact Except.noConfusion hok
      · intro hne
        exact absurd rfl hne
  | cons f rest =>
      refine ⟨?_, ?_, ?_⟩
      · intro hcon
        cases hcon
      · intro g hok
        obtain rfl := Except.ok.inj hok
        obtain ⟨hmem, hself, hall⟩ := newestOf_spec rest f
        have hginfilter : newestOf f rest ∈ files.filter (fun f => pattern f.name) := by
          rw [hfl]
          rcases hmem with he | hm
          · rw [he]
            exact List.mem_cons_self f rest
          · exact List.mem_cons_of_mem _ hm
        have hgmem := List.mem_filter.mp hginfilter
        refine ⟨hgmem.1, hgmem.2, ?_⟩
        intro f2 hf2 hp2
        have hf2filter : f2 ∈ files.filter (fun f => pattern f.name) :=
          List.mem_filter.mpr ⟨hf2, hp2⟩
        rw [hfl] at hf2filter
        rcases List.mem_cons.mp hf2filter with rfl | hf2m
        · exact hself
        · exact hall f2 hf2m
      · intro _
        rfl

/-- Witness for C9: the error case at a pattern nothing matches, and the
file returned for the live pattern is a member of the folder. -/
theorem get_latest_file_spec_witness :
    get_latest_file sampleFiles nothingPattern = Except.error "No files found" ∧
      (⟨"2024-02-01 live_data.csv", 9⟩ : FSFile) ∈ sampleFiles :=
  ⟨(get_latest_file_spec sampleFiles nothingPattern).1 (by decide),
   ((get_latest_file_spec sampleFiles livePattern).2.1 ⟨"2024-02-01 live_data.csv", 9⟩
      rfl).1⟩

/-- C4: for every registry numeric column present in the batch, the range
row of the report passes iff no cell value is strictly below the registry
minimum and none strictly above the maximum — bounds inclusive. -/
theorem range_check_inclusive (df : Batch) (rep : List CheckRow) (col : String)
    (low high : ℚ) (c : Column)
    (hrep : validate df = Except.ok rep)
    (hmem : (col, low, high) ∈ EXPECTED_RANGES)
    (hc : df.getCol col = some c) :
    rangeCheckRow c col low high ∈ rep ∧
      ((rangeCheckRow c col low high).status = "Pass" ↔
        ∀ q : ℚ, some (Cell.num q) ∈ c.cells → ¬ q < low ∧ ¬ high < q) := by
  obtain ⟨cid, hcid, ranges, hr, hrepeq⟩ := validate_ok_elim hrep
  constructor
  · have hin : rangeCheckRow c col low high ∈ ranges :=
      rangeChecksAux_mem hr hmem hc
    rw [hrepeq]
    simp only [List.mem_append]
    tauto
  · have hiff : (rangeCheckRow c col low high).status = "Pass" ↔
        (countBelow c.cells low = 0 ∧ countAbove c.cells high = 0) := by
      rw [rangeCheckRow_status]
      split
      · next hcond =>
          simp only [Bool.and_eq_true, decide_eq_true_eq] at hcond
          simpa using hcond
      · next hcond =>
          simp only [Bool.and_eq_true, decide_eq_true_eq] at hcond
          constructor
          · intro hpf
            exact absurd hpf (by decide)
          · intro hab
            exact absurd (by simpa using hab) hcond
    rw [hiff]
    unfold countBelow countAbove
    rw [List.countP_eq_zero, List.countP_eq_zero]
    constructor
    · rintro ⟨h1, h2⟩ q hq
      have hb := h1 _ hq
      have ha := h2 _ hq
      simp only [decide_eq_true_eq] at hb ha
      exact ⟨hb, ha⟩
    · intro hall
      constructor
      · intro v hv
        cases v with
        | none => simp
        | some cell =>
            cases cell with
            | str s => simp
            | num q =>
                simp only [decide_eq_true_eq]
                exact (hall q hv).1
      · intro v hv
        cases v with
        | none => simp
        | some cell =>
            cases cell with
            | str s => simp
            | num q =>
                simp only [decide_eq_true_eq]
                exact (hall q hv).2

/-- Witness for C4: tenure values exactly on the registry bounds 0 and
100 pass the range check. -/
theorem range_check_inclusive_witness :
    rangeCheckRow tenureCol "tenure" 0 100 ∈ repOf tenureBoundaryBatch ∧
      (rangeCheckRow tenureCol "tenure" 0 100).status = "Pass" := by
  have h := range_check_inclusive tenureBoundaryBatch (repOf tenureBoundaryBatch)
    "tenure" 0 100 tenureCol rfl (by decide) rfl
  refine ⟨h.1, h.2.mpr ?_⟩
  intro q hq
  have hcells : tenureCol.cells = [some (Cell.num 0), some (Cell.num 100)] := rfl
  rw [hcells] at hq
  simp only [List.mem_cons, List.not_mem_nil, or_false] at hq
  rcases hq with h0 | h100
  · obtain rfl : q = 0 := by simpa using h0
    norm_num
  · obtain rfl : q = 100 := by simpa using h100
    norm_num

/-- C2 counterexample: a batch missing the registry identifier column
customerID makes validate raise (the source's `df["customerID"]` raises a
KeyError) instead of returning a report — so validate is not total on
batches with missing columns. -/
theorem validate_raises_on_missing_id_cex :
    noIdBatch.hasCol "customerID" = false ∧ exceptOk (validate noIdBatch) = false := by
  decide

/-- C2 amended: validate returns a report without raising for every batch
with pairwise-distinct column labels that contains the customerID column
and whose registry numeric columns hold no string cells; any other
missing registry column is then recorded as a failure row (type check
Fail with detail "Missing column"), not an error. The distinct-labels
hypothesis is needed because `Batch.getCol` is a first-match lookup: on a
duplicated column label the source's `df[col].dtype` raises an
AttributeError (a `df[col]` on a duplicated label is a DataFrame), an
error path the model does not reach. -/
theorem validate_total_amended (df : Batch)
    (hnd : (df.cols.map Column.name).Nodup)
    (hid : df.hasCol "customerID" = true)
    (hnum : rangeColsNumeric df = true) :
    ∃ rep, validate df = Except.ok rep ∧
      ∀ col expected, (col, expected) ∈ EXPECTED_SCHEMA → df.hasCol col = false →
        (⟨"Type - " ++ col, "Fail", "Missing column"⟩ : CheckRow) ∈ rep := by
  unfold Batch.hasCol at hid
  cases hc : df.getCol "customerID" with
  | none =>
      rw [hc] at hid
      simp at hid
  | some c =>
      obtain ⟨rows, hrows⟩ :=
        rangeChecksAux_ok
          (show rangeColsNumericOn df EXPECTED_RANGES = true from hnum)
      have hint : integrityChecks df = Except.ok [nullIdRow c, dupIdRow c] := by
        unfold integrityChecks
        rw [hc]
      refine ⟨typeChecks df ++ missingChecks df ++ [nullIdRow c, dupIdRow c] ++ rows ++
        domainChecks df, ?_, ?_⟩
      · unfold validate
        rw [hint]
        unfold rangeChecks
        rw [hrows]
      · intro col expected hmem hnocol
        have hrow : typeCheckRow df col expected ∈ typeChecks df :=
          List.mem_map_of_mem _ hmem
        have heq : typeCheckRow df col expected =
            ⟨"Type - " ++ col, "Fail", "Missing column"⟩ := by
          unfold typeCheckRow
          unfold Batch.hasCol at hnocol
          cases hg : df.getCol col with
          | none => rfl
          | some cc =>
              rw [hg] at hnocol
              simp at hnocol
        rw [heq] at hrow
        simp only [List.mem_append]
        tauto

/-- Witness for C2's amended claim: the identifier-only batch yields a
report whose gender type check fails with "Missing column". -/
theorem validate_total_amended_witness :
    (⟨"Type - " ++ "gender", "Fail", "Missing column"⟩ : CheckRow) ∈ repOf onlyIdBatch := by
  obtain ⟨rep, hrep, hmiss⟩ :=
    validate_total_amended onlyIdBatch (by decide) (by decide) (by decide)
  have hr : repOf onlyIdBatch = rep := by
    unfold repOf
    rw [hrep]
    rfl
  rw [hr]
  exact hmiss "gender" "object" (by decide) (by decide)

/-- C5 counterexample: a batch missing the registry column customerID gets
no report at all — validate raises — so no "Missing column" type row and
no "Column missing" domain row is reported for it, contrary to the claim
that this holds for every batch missing a registry column. -/
theorem missing_column_rows_cex :
    partnerOnlyBatch.hasCol "customerID" = false ∧
      exceptOk (validate partnerOnlyBatch) = false := by
  decide

/-- C5 amended: for every batch whose validation completes (which requires
the customerID column to be present), a missing registry column is
reported with a type-check Fail row with detail "Missing column" and, when
the column is categorical, a domain-check Fail row with detail
"Column missing", independent of the other columns' correctness; a batch
missing customerID itself raises instead and reports nothing. -/
theorem missing_column_rows_amended (df : Batch) (rep : List CheckRow) (col : String)
    (hrep : validate df = Except.ok rep)
    (hschema : col ∈ EXPECTED_SCHEMA.map Prod.fst)
    (hmissing : df.hasCol col = false) :
    (⟨"Type - " ++ col, "Fail", "Missing column"⟩ : CheckRow) ∈ rep ∧
      (col ∈ EXPECTED_CATEGORIES.map Prod.fst →
        (⟨"Domain - " ++ col, "Fail", "Column missing"⟩ : CheckRow) ∈ rep) := by
  obtain ⟨c, hc, ranges, hr, hrepeq⟩ := validate_ok_elim hrep
  have hno : df.getCol col = none := by
    unfold Batch.hasCol at hmissing
    cases hg : df.getCol col with
    | none => rfl
    | some cc =>
        rw [hg] at hmissing
        simp at hmissing
  constructor
  · obtain ⟨⟨a1, a2⟩, hp, hfst⟩ := List.mem_map.mp hschema
    dsimp only at hfst
    subst hfst
    have hrow : typeCheckRow df a1 a2 ∈ typeChecks df := List.mem_map_of_mem _ hp
    have heq : typeCheckRow df a1 a2 = ⟨"Type - " ++ a1, "Fail", "Missing column"⟩ := by
      unfold typeCheckRow
      rw [hno]
    rw [heq] at hrow
    rw [hrepeq]
    simp only [List.mem_append]
    tauto
  · intro hcat
    obtain ⟨⟨a1, a2⟩, hp, hfst⟩ := List.mem_map.mp hcat
    dsimp only at hfst
    subst hfst
    have hrow : domainCheckRow df a1 a2 ∈ domainChecks df := List.mem_map_of_mem _ hp
    have heq : domainCheckRow df a1 a2 = ⟨"Domain - " ++ a1, "Fail", "Column missing"⟩ := by
      unfold domainCheckRow
      rw [hno]
    rw [heq] at hrow
    rw [hrepeq]
    simp only [List.mem_append]
    tauto

/-- Witness for C5's amended claim: the identifier-only batch's report
carries both failure rows for the missing categorical column Partner. -/
theorem missing_column_rows_amended_witness :
    (⟨"Type - " ++ "Partner", "Fail", "Missing column"⟩ : CheckRow) ∈ repOf onlyIdBatch ∧
      (⟨"Domain - " ++ "Partner", "Fail", "Column missing"⟩ : CheckRow) ∈
        repOf onlyIdBatch := by
  have h := missing_column_rows_amended onlyIdBatch (repOf onlyIdBatch) "Partner"
    rfl (by decide) (by decide)
  exact ⟨h.1, h.2 (by decide)⟩

/-- C8: in the absent-master branch, an all-pass combined validation makes
main write the concatenation of the static and live batches as the master
— its row count the sum of the two row counts — with exactly one
version-log entry; a failing validation leaves no master behind. -/
theorem absent_master_merge (s l : Batch) (r : RunResult) (rep : List CheckRow)
    (hNames : s.cols.map Column.name = l.cols.map Column.name)
    (hrep : validate (s.concat l) = Except.ok rep)
    (hrun : main ⟨none, some s, some l⟩ = Except.ok r) :
    (hasFail rep = false →
       r.master = some (s.concat l) ∧
         (s.concat l).nrows = s.nrows + l.nrows ∧
         r.events.countP isVersionLogEv = 1 ∧
         r.events.countP isMasterWriteEv = 1) ∧
    (hasFail rep = true →
       r.master = none ∧ r.events.countP isMasterWriteEv = 0 ∧
         r.events.countP isVersionLogEv = 0) := by
  rw [main_branchA_eq hrep] at hrun
  have hsne : s.cols ≠ [] := by
    obtain ⟨cid, hcid, _⟩ := validate_ok_elim hrep
    have hconcatne := cols_ne_nil_of_getCol hcid
    intro hs
    apply hconcatne
    unfold Batch.concat
    rw [hs]
    rfl
  constructor
  · intro hf
    rw [hf] at hrun
    simp only [Bool.false_eq_true, if_false] at hrun
    obtain rfl := Except.ok.inj hrun
    refine ⟨rfl, nrows_concat hNames hsne, ?_, ?_⟩
    · simp [isVersionLogEv, creationLogEv]
    · simp [isMasterWriteEv, creationLogEv]
  · intro hf
    rw [hf] at hrun
    simp only [if_true] at hrun
    obtain rfl := Except.ok.inj hrun
    refine ⟨rfl, ?_, ?_⟩
    · simp [isMasterWriteEv]
    · simp [isVersionLogEv]

/-- Witness for C8 at concrete valid static and live batches: the created
master holds both rows and one version-log entry is emitted. -/
theorem absent_master_merge_witness :
    c8R.master = some ((sampleBatch "S8").concat (sampleBatch "L8")) ∧
      ((sampleBatch "S8").concat (sampleBatch "L8")).nrows =
        (sampleBatch "S8").nrows + (sampleBatch "L8").nrows ∧
      c8R.events.countP isVersionLogEv = 1 ∧
      c8R.events.countP isMasterWriteEv = 1 :=
  (absent_master_merge (sampleBatch "S8") (sampleBatch "L8") c8R c8Rep
    rfl rfl rfl).1 (by decide)

/-- C3 counterexample: with a valid one-row live batch, the first
present-master run merges it (one version-log entry), but the second run
with the very same live batch does not produce a second master update —
the combined duplicate-identifier check fails, so no master write and no
version-log entry happen, contrary to the claim that both runs re-append. -/
theorem rerun_reappends_cex :
    runMaster c3St1 = some (some c3M1) ∧
      (runEvents c3St1).countP isVersionLogEv = 1 ∧
      c3M1 ≠ c3M0 ∧
      runMaster c3St2 = some (some c3M1) ∧
      (runEvents c3St2).countP isMasterWriteEv = 0 ∧
      (runEvents c3St2).countP isVersionLogEv = 0 := by
  decide

/-- C3 amended: re-running the present-master branch with a live batch
whose (nonempty) identifier values already sit in the master's identifier
column — as they do after a previous merge of the same live file — does
not re-append it: the live batch alone still validates, but the combined
duplicate-identifier check fails, so the second run leaves the master
unchanged and performs no master write and no version-log entry. -/
theorem rerun_blocked_amended (m1 live : Batch) (sb : Option Batch)
    (lrep : List CheckRow) (lc mc : Column) (r2 : RunResult)
    (hNames : m1.cols.map Column.name = live.cols.map Column.name)
    (hmc : m1.getCol "customerID" = some mc)
    (hlc : live.getCol "customerID" = some lc)
    (hne : lc.cells ≠ [])
    (hsub : ∀ v ∈ lc.cells, v ∈ mc.cells)
    (hlrep : validate live = Except.ok lrep)
    (hlpass : hasFail lrep = false)
    (hrun : main ⟨some m1, sb, some live⟩ = Except.ok r2) :
    r2.master = some m1 ∧ r2.events.countP isMasterWriteEv = 0 ∧
      r2.events.countP isVersionLogEv = 0 := by
  rw [main_branchB_afterLive hlrep hlpass] at hrun
  cases hv2 : validate (m1.concat live) with
  | error e =>
      rw [hv2] at hrun
      exact Except.noConfusion hrun
  | ok crep =>
      rw [hv2] at hrun
      dsimp only at hrun
      have hcc : (m1.concat live).getCol "customerID" =
          some ⟨mc.name, mixDtype mc.dtype lc.dtype, mc.cells ++ lc.cells⟩ :=
        getCol_concat hNames hmc hlc
      have hdup : hasDup (mc.cells ++ lc.cells) = true := by
        obtain ⟨v, hv⟩ := List.exists_mem_of_ne_nil lc.cells hne
        exact hasDup_append_of_mem (hsub v hv) hv
      have hdmem : dupIdRow ⟨mc.name, mixDtype mc.dtype lc.dtype, mc.cells ++ lc.cells⟩ ∈
          crep := dupIdRow_mem hv2 hcc
      have hfail : hasFail crep = true := by
        unfold hasFail
        rw [List.any_eq_true]
        refine ⟨_, hdmem, ?_⟩
        rw [dupIdRow_status]
        dsimp only
        rw [hdup]
        simp
      rw [hfail] at hrun
      simp only [if_true] at hrun
      obtain rfl := Except.ok.inj hrun
      refine ⟨rfl, ?_, ?_⟩
      · simp [isMasterWriteEv]
      · simp [isVersionLogEv]

/-- Witness for C3's amended claim at the concrete re-run scenario. -/
theorem rerun_blocked_amended_witness :
    c3R2.master = some c3M1 ∧ c3R2.events.countP isMasterWriteEv = 0 ∧
      c3R2.events.countP isVersionLogEv = 0 :=
  rerun_blocked_amended c3M1 c3Live none c3Lrep c3Lc c3Mc c3R2
    rfl rfl rfl (by decide) (by decide) rfl (by decide) rfl

lemma prefixed_ne {p q : String} (x y : String)
    (h : decide (p.data.head? ≠ q.data.head?) = true)
    (hp : p.data ≠ []) (hq2 : q.data ≠ []) : p ++ x ≠ q ++ y := by
  have hne := of_decide_eq_true h
  cases hpd : p.data with
  | nil => exact absurd hpd hp
  | cons a l =>
      cases hqd : q.data with
      | nil => exact absurd hqd hq2
      | cons b m =>
          have hpa : p.data.head? = some a := by rw [hpd]; rfl
          have hqb : q.data.head? = some b := by rw [hqd]; rfl
          have hab : a ≠ b := by
            intro hab2
            apply hne
            rw [hpa, hqb, hab2]
          exact ne_of_headChar (headChar_append p x a hpa) (headChar_append q y b hqb) hab

lemma countP_zero_of_ne {rows : List CheckRow} {target : String}
    (h : ∀ row ∈ rows, row.check ≠ target) :
    rows.countP (fun row => decide (row.check = target)) = 0 := by
  rw [List.countP_eq_zero]
  intro row hrow
  simp only [decide_eq_true_eq]
  exact h row hrow

lemma typeChecks_check_shape {df : Batch} {row : CheckRow} (h : row ∈ typeChecks df) :
    ∃ x, row.check = "Type - " ++ x := by
  obtain ⟨p, hp, rfl⟩ := List.mem_map.mp h
  exact ⟨p.1, typeCheckRow_check df p.1 p.2⟩

lemma missingChecks_check_shape {df : Batch} {row : CheckRow} (h : row ∈ missingChecks df) :
    ∃ x, row.check = "Missing - " ++ x := by
  obtain ⟨c, hc, rfl⟩ := List.mem_map.mp h
  exact ⟨c.name, missingCheckRow_check c⟩

lemma domainChecks_check_shape {df : Batch} {row : CheckRow} (h : row ∈ domainChecks df) :
    ∃ x, row.check = "Domain - " ++ x := by
  obtain ⟨p, hp, rfl⟩ := List.mem_map.mp h
  exact ⟨p.1, domainCheckRow_check df p.1 p.2⟩

lemma rangeChecksAux_check_shape {df : Batch} :
    ∀ {l : List (String × ℚ × ℚ)} {rows : List CheckRow} {row : CheckRow},
      rangeChecksAux df l = Except.ok rows → row ∈ rows →
      ∃ x, row.check = "Range - " ++ x := by
  intro l
  induction l with
  | nil =>
      intro rows row hok hm
      obtain rfl := Except.ok.inj hok
      cases hm
  | cons p rest ih =>
      intro rows row hok hm
      obtain ⟨col2, low2, high2⟩ := p
      unfold rangeChecksAux at hok
      cases hg : df.getCol col2 with
      | none =>
          rw [hg] at hok
          exact ih hok hm
      | some c2 =>
          rw [hg] at hok
          dsimp only at hok
          cases hnum : numericCells c2.cells with
          | false =>
              rw [hnum] at hok
              simp at hok
          | true =>
              rw [hnum] at hok
              simp only [if_true] at hok
              cases hrest : rangeChecksAux df rest with
              | error e =>
                  rw [hrest] at hok
                  cases hok
              | ok rows2 =>
                  rw [hrest] at hok
                  obtain rfl := Except.ok.inj hok
                  rcases List.mem_cons.mp hm with rfl | hm2
                  · exact ⟨col2, rangeCheckRow_check c2 col2 low2 high2⟩
                  · exact ih hrest hm2

lemma rangeChecksAux_ranks {df : Batch} :
    ∀ {l : List (String × ℚ × ℚ)} {rows : List CheckRow} {row : CheckRow},
      rangeChecksAux df l = Except.ok rows → row ∈ rows → kindRank row = 3 := by
  intro l
  induction l with
  | nil =>
      intro rows row hok hm
      obtain rfl := Except.ok.inj hok
      cases hm
  | cons p rest ih =>
      intro rows row hok hm
      obtain ⟨col2, low2, high2⟩ := p
      unfold rangeChecksAux at hok
      cases hg : df.getCol col2 with
      | none =>
          rw [hg] at hok
          exact ih hok hm
      | some c2 =>
          rw [hg] at hok
          dsimp only at hok
          cases hnum : numericCells c2.cells with
          | false =>
              rw [hnum] at hok
              simp at hok
          | true =>
              rw [hnum] at hok
              simp only [if_true] at hok
              cases hrest : rangeChecksAux df rest with
              | error e =>
                  rw [hrest] at hok
                  cases hok
              | ok rows2 =>
                  rw [hrest] at hok
                  obtain rfl := Except.ok.inj hok
                  rcases List.mem_cons.mp hm with rfl | hm2
                  · exact kindRank_rangeRow c2 col2 low2 high2
                  · exact ih hrest hm2

lemma rangeChecksAux_countP {df : Batch} (col : String) :
    ∀ {l : List (String × ℚ × ℚ)} {rows : List CheckRow},
      rangeChecksAux df l = Except.ok rows →
      rows.countP (fun row => decide (row.check = "Range - " ++ col)) =
        l.countP (fun p => decide (p.1 = col) && df.hasCol p.1) := by
  intro l
  induction l with
  | nil =>
      intro rows hok
      obtain rfl := Except.ok.inj hok
      rfl
  | cons p rest ih =>
      intro rows hok
      obtain ⟨col2, low2, high2⟩ := p
      unfold rangeChecksAux at hok
      cases hg : df.getCol col2 with
      | none =>
          rw [hg] at hok
          have hcol : df.hasCol col2 = false := by
            unfold Batch.hasCol
            rw [hg]
            rfl
          rw [List.countP_cons]
          dsimp only
          rw [hcol]
          simp only [Bool.and_false]
          rw [ih hok]
          simp
      | some c2 =>
          rw [hg] at hok
          dsimp only at hok
          cases hnum : numericCells c2.cells with
          | false =>
              rw [hnum] at hok
              simp at hok
          | true =>
              rw [hnum] at hok
              simp only [if_true] at hok
              cases hrest : rangeChecksAux df rest with
              | error e =>
                  rw [hrest] at hok
                  cases hok
              | ok rows2 =>
                  rw [hrest] at hok
                  obtain rfl := Except.ok.inj hok
                  have hcol : df.hasCol col2 = true := by
                    unfold Batch.hasCol
                    rw [hg]
                    rfl
                  rw [List.countP_cons, List.countP_cons]
                  dsimp only
                  rw [hcol, rangeCheckRow_check]
                  rw [ih hrest]
                  have hiff : (decide ("Range - " ++ col2 = "Range - " ++ col)) =
                      (decide (col2 = col) && true) := by
                    simp only [Bool.and_true]
                    by_cases hcc : col2 = col
                    · rw [hcc]
                      simp
                    · rw [decide_eq_false hcc]
                      rw [decide_eq_false (fun hstr =>
                        hcc (string_append_left_cancel hstr))]
                  rw [hiff]

lemma countP_key_guard {β : Type} (g : String → Bool) :
    ∀ (l : List (String × β)) (col : String), (l.map Prod.fst).Nodup →
      col ∈ l.map Prod.fst →
      l.countP (fun p => decide (p.1 = col) && g p.1) = if g col then 1 else 0 := by
  intro l
  induction l with
  | nil =>
      intro col _ hc
      simp at hc
  | cons x xs ih =>
      intro col hnd hc
      simp only [List.map_cons, List.nodup_cons] at hnd
      obtain ⟨hx, hnd2⟩ := hnd
      simp only [List.map_cons, List.mem_cons] at hc
      rcases hc with rfl | htail
      · have hz : xs.countP (fun p => decide (p.1 = x.1) && g p.1) = 0 := by
          rw [List.countP_eq_zero]
          intro p hp
          simp only [Bool.and_eq_true, decide_eq_true_eq, not_and]
          intro hpc
          exact absurd (hpc ▸ List.mem_map_of_mem _ hp) hx
        rw [List.countP_cons, hz]
        simp
      · have hne : ¬ (x.1 = col) := fun h => hx (h ▸ htail)
        rw [List.countP_cons, ih col hnd2 htail]
        simp [hne]

lemma map_kindRank_replicate {rows : List CheckRow} {k : Nat}
    (h : ∀ row ∈ rows, kindRank row = k) :
    rows.map kindRank = List.replicate rows.length k := by
  have h2 : ∀ b ∈ rows.map kindRank, b = k := by
    intro b hb
    obtain ⟨row, hrow, rfl⟩ := List.mem_map.mp hb
    exact h row hrow
  have h3 := List.eq_replicate_of_mem h2
  rwa [List.length_map] at h3

/-- C6: for every batch whose validation completes and whose column names
are distinct, the report keeps the fixed section order — type checks, then
missing-value checks, then the two integrity checks, then range checks,
then categorical-domain checks (its kind-rank sequence is a block of 0s,
then 1s, 2s, 3s, 4s) — and carries exactly one row per column and check
kind: one type row per registry column, one missing row per batch column,
one of each of the two integrity rows, one range row per registry numeric
column present in the batch (none when absent), and one domain row per
registry categorical column — regardless of how many checks fail. -/
theorem report_shape (df : Batch) (rep : List CheckRow)
    (hrep : validate df = Except.ok rep)
    (hnd : (df.cols.map Column.name).Nodup) :
    (∃ n0 n1 n2 n3 n4, rep.map kindRank =
       List.replicate n0 0 ++ List.replicate n1 1 ++ List.replicate n2 2 ++
         List.replicate n3 3 ++ List.replicate n4 4) ∧
    (∀ col, col ∈ EXPECTED_SCHEMA.map Prod.fst →
       rep.countP (fun row => decide (row.check = "Type - " ++ col)) = 1) ∧
    (∀ c ∈ df.cols,
       rep.countP (fun row => decide (row.check = "Missing - " ++ c.name)) = 1) ∧
    rep.countP (fun row => decide (row.check = "Integrity - Null ID")) = 1 ∧
    rep.countP (fun row => decide (row.check = "Integrity - Duplicates")) = 1 ∧
    (∀ col low high, (col, low, high) ∈ EXPECTED_RANGES →
       rep.countP (fun row => decide (row.check = "Range - " ++ col)) =
         if df.hasCol col then 1 else 0) ∧
    (∀ col, col ∈ EXPECTED_CATEGORIES.map Prod.fst →
       rep.countP (fun row => decide (row.check = "Domain - " ++ col)) = 1) := by
  obtain ⟨cid, hcid, ranges, hr, hrepeq⟩ := validate_ok_elim hrep
  unfold rangeChecks at hr
  subst hrepeq
  refine ⟨?_, ?_, ?_, ?_, ?_, ?_, ?_⟩
  · refine ⟨(typeChecks df).length, (missingChecks df).length, 2, ranges.length,
      (domainChecks df).length, ?_⟩
    rw [List.map_append, List.map_append, List.map_append, List.map_append]
    have h0 : (typeChecks df).map kindRank = List.replicate (typeChecks df).length 0 :=
      map_kindRank_replicate (by
        intro row hrow
        obtain ⟨p, hp, rfl⟩ := List.mem_map.mp hrow
        exact kindRank_typeRow df p.1 p.2)
    have h1 : (missingChecks df).map kindRank =
        List.replicate (missingChecks df).length 1 :=
      map_kindRank_replicate (by
        intro row hrow
        obtain ⟨c, hc, rfl⟩ := List.mem_map.mp hrow
        exact kindRank_missingRow c)
    have h2 : ([nullIdRow cid, dupIdRow cid] : List CheckRow).map kindRank =
        List.replicate 2 2 := by
      show [kindRank (nullIdRow cid), kindRank (dupIdRow cid)] = [2, 2]
      rw [kindRank_nullIdRow, kindRank_dupIdRow]
    have h3 : ranges.map kindRank = List.replicate ranges.length 3 :=
      map_kindRank_replicate (fun row hrow => rangeChecksAux_ranks hr hrow)
    have h4 : (domainChecks df).map kindRank =
        List.replicate (domainChecks df).length 4 :=
      map_kindRank_replicate (by
        intro row hrow
        obtain ⟨p, hp, rfl⟩ := List.mem_map.mp hrow
        exact kindRank_domainRow df p.1 p.2)
    rw [h0, h1, h2, h3, h4]
  · intro col hcol
    rw [List.countP_append, List.countP_append, List.countP_append, List.countP_append]
    have ht : (typeChecks df).countP
        (fun row => decide (row.check = "Type - " ++ col)) = 1 := by
      unfold typeChecks
      rw [List.countP_map]
      have hcg : EXPECTED_SCHEMA.countP
          ((fun row => decide (row.check = "Type - " ++ col)) ∘
            (fun p => typeCheckRow df p.1 p.2)) =
          EXPECTED_SCHEMA.countP (fun p => decide (p.1 = col)) :=
        List.countP_congr (by
          intro p hp
          simp only [Function.comp_apply, decide_eq_true_eq, typeCheckRow_check]
          constructor
          · intro h
            exact string_append_left_cancel h
          · intro h
            rw [h])
      rw [hcg]
      exact countP_fst_eq_one EXPECTED_SCHEMA col (by decide) hcol
    have hm0 : (missingChecks df).countP
        (fun row => decide (row.check = "Type - " ++ col)) = 0 :=
      countP_zero_of_ne (by
        intro row hrow
        obtain ⟨x, hx⟩ := missingChecks_check_shape hrow
        rw [hx]
        exact prefixed_ne x col (by decide) (by decide) (by decide))
    have hi0 : ([nullIdRow cid, dupIdRow cid] : List CheckRow).countP
        (fun row => decide (row.check = "Type - " ++ col)) = 0 :=
      countP_zero_of_ne (by
        intro row hrow
        rcases List.mem_cons.mp hrow with rfl | hrow2
        · rw [nullIdRow_check]
          show "Integrity - " ++ "Null ID" ≠ "Type - " ++ col
          exact prefixed_ne "Null ID" col (by decide) (by decide) (by decide)
        · rcases List.mem_cons.mp hrow2 with rfl | h3
          · rw [dupIdRow_check]
            show "Integrity - " ++ "Duplicates" ≠ "Type - " ++ col
            exact prefixed_ne "Duplicates" col (by decide) (by decide) (by decide)
          · cases h3)
    have hr0 : ranges.countP (fun row => decide (row.check = "Type - " ++ col)) = 0 :=
      countP_zero_of_ne (by
        intro row hrow
        obtain ⟨x, hx⟩ := rangeChecksAux_check_shape hr hrow
        rw [hx]
        exact prefixed_ne x col (by decide) (by decide) (by decide))
    have hd0 : (domainChecks df).countP
        (fun row => decide (row.check = "Type - " ++ col)) = 0 :=
      countP_zero_of_ne (by
        intro row hrow
        obtain ⟨x, hx⟩ := domainChecks_check_shape hrow
        rw [hx]
        exact prefixed_ne x col (by decide) (by decide) (by decide))
    rw [ht, hm0, hi0, hr0, hd0]
  · intro c hc
    rw [List.countP_append, List.countP_append, List.countP_append, List.countP_append]
    have hm : (missingChecks df).countP
        (fun row => decide (row.check = "Missing - " ++ c.name)) = 1 := by
      unfold missingChecks
      rw [List.countP_map]
      have hcg : df.cols.countP
          ((fun row => decide (row.check = "Missing - " ++ c.name)) ∘ missingCheckRow) =
          df.cols.countP (fun c2 => decide (c2.name = c.name)) :=
        List.countP_congr (by
          intro c2 hc2
          simp only [Function.comp_apply, decide_eq_true_eq, missingCheckRow_check]
          constructor
          · intro h
            exact string_append_left_cancel h
          · intro h
            rw [h])
      rw [hcg]
      exact countP_name_eq_one df.cols hnd c hc
    have ht0 : (typeChecks df).countP
        (fun row => decide (row.check = "Missing - " ++ c.name)) = 0 :=
      countP_zero_of_ne (by
        intro row hrow
        obtain ⟨x, hx⟩ := typeChecks_check_shape hrow
        rw [hx]
        exact prefixed_ne x c.name (by decide) (by decide) (by decide))
    have hi0 : ([nullIdRow cid, dupIdRow cid] : List CheckRow).countP
        (fun row => decide (row.check = "Missing - " ++ c.name)) = 0 :=
      countP_zero_of_ne (by
        intro row hrow
        rcases List.mem_cons.mp hrow with rfl | hrow2
        · rw [nullIdRow_check]
          show "Integrity - " ++ "Null ID" ≠ "Missing - " ++ c.name
          exact prefixed_ne "Null ID" c.name (by decide) (by decide) (by decide)
        · rcases List.mem_cons.mp hrow2 with rfl | h3
          · rw [dupIdRow_check]
            show "Integrity - " ++ "Duplicates" ≠ "Missing - " ++ c.name
            exact prefixed_ne "Duplicates" c.name (by decide) (by decide) (by decide)
          · cases h3)
    have hr0 : ranges.countP
        (fun row => decide (row.check = "Missing - " ++ c.name)) = 0 :=
      countP_zero_of_ne (by
        intro row hrow
        obtain ⟨x, hx⟩ := rangeChecksAux_check_shape hr hrow
        rw [hx]
        exact prefixed_ne x c.name (by decide) (by decide) (by decide))
    have hd0 : (domainChecks df).countP
        (fun row => decide (row.check = "Missing - " ++ c.name)) = 0 :=
      countP_zero_of_ne (by
        intro row hrow
        obtain ⟨x, hx⟩ := domainChecks_check_shape hrow
        rw [hx]
        exact prefixed_ne x c.name (by decide) (by decide) (by decide))
    rw [ht0, hm, hi0, hr0, hd0]
  · rw [List.countP_append, List.countP_append, List.countP_append, List.countP_append]
    have hown : ([nullIdRow cid, dupIdRow cid] : List CheckRow).countP
        (fun row => decide (row.check = "Integrity - Null ID")) = 1 := by
      rw [List.countP_cons, List.countP_cons, List.countP_nil]
      rw [nullIdRow_check, dupIdRow_check]
      decide
    have ht0 : (typeChecks df).countP
        (fun row => decide (row.check = "Integrity - Null ID")) = 0 :=
      countP_zero_of_ne (by
        intro row hrow
        obtain ⟨x, hx⟩ := typeChecks_check_shape hrow
        rw [hx]
        show "Type - " ++ x ≠ "Integrity - " ++ "Null ID"
        exact prefixed_ne x "Null ID" (by decide) (by decide) (by decide))
    have hm0 : (missingChecks df).countP
        (fun row => decide (row.check = "Integrity - Null ID")) = 0 :=
      countP_zero_of_ne (by
        intro row hrow
        obtain ⟨x, hx⟩ := missingChecks_check_shape hrow
        rw [hx]
        show "Missing - " ++ x ≠ "Integrity - " ++ "Null ID"
        exact prefixed_ne x "Null ID" (by decide) (by decide) (by decide))
    have hr0 : ranges.countP
        (fun row => decide (row.check = "Integrity - Null ID")) = 0 :=
      countP_zero_of_ne (by
        intro row hrow
        obtain ⟨x, hx⟩ := rangeChecksAux_check_shape hr hrow
        rw [hx]
        show "Range - " ++ x ≠ "Integrity - " ++ "Null ID"
        exact prefixed_ne x "Null ID" (by decide) (by decide) (by decide))
    have hd0 : (domainChecks df).countP
        (fun row => decide (row.check = "Integrity - Null ID")) = 0 :=
      countP_zero_of_ne (by
        intro row hrow
        obtain ⟨x, hx⟩ := domainChecks_check_shape hrow
        rw [hx]
        show "Domain - " ++ x ≠ "Integrity - " ++ "Null ID"
        exact prefixed_ne x "Null ID" (by decide) (by decide) (by decide))
    rw [ht0, hm0, hown, hr0, hd0]
  · rw [List.countP_append, List.countP_append, List.countP_append, List.countP_append]
    have hown : ([nullIdRow cid, dupIdRow cid] : List CheckRow).countP
        (fun row => decide (row.check = "Integrity - Duplicates")) = 1 := by
      rw [List.countP_cons, List.countP_cons, List.countP_nil]
      rw [nullIdRow_check, dupIdRow_check]
      decide
    have ht0 : (typeChecks df).countP
        (fun row => decide (row.check = "Integrity - Duplicates")) = 0 :=
      countP_zero_of_ne (by
        intro row hrow
        obtain ⟨x, hx⟩ := typeChecks_check_shape hrow
        rw [hx]
        show "Type - " ++ x ≠ "Integrity - " ++ "Duplicates"
        exact prefixed_ne x "Duplicates" (by decide) (by decide) (by decide))
    have hm0 : (missingChecks df).countP
        (fun row => decide (row.check = "Integrity - Duplicates")) = 0 :=
      countP_zero_of_ne (by
        intro row hrow
        obtain ⟨x, hx⟩ := missingChecks_check_shape hrow
        rw [hx]
        show "Missing - " ++ x ≠ "Integrity - " ++ "Duplicates"
        exact prefixed_ne x "Duplicates" (by decide) (by decide) (by decide))
    have hr0 : ranges.countP
        (fun row => decide (row.check = "Integrity - Duplicates")) = 0 :=
      countP_zero_of_ne (by
        intro row hrow
        obtain ⟨x, hx⟩ := rangeChecksAux_check_shape hr hrow
        rw [hx]
        show "Range - " ++ x ≠ "Integrity - " ++ "Duplicates"
        exact prefixed_ne x "Duplicates" (by decide) (by decide) (by decide))
    have hd0 : (domainChecks df).countP
        (fun row => decide (row.check = "Integrity - Duplicates")) = 0 :=
      countP_zero_of_ne (by
        intro row hrow
        obtain ⟨x, hx⟩ := domainChecks_check_shape hrow
        rw [hx]
        show "Domain - " ++ x ≠ "Integrity - " ++ "Duplicates"
        exact prefixed_ne x "Duplicates" (by decide) (by decide) (by decide))
    rw [ht0, hm0, hown, hr0, hd0]
  · intro col low high hmem
    rw [List.countP_append, List.countP_append, List.countP_append, List.countP_append]
    have hown : ranges.countP (fun row => decide (row.check = "Range - " ++ col)) =
        EXPECTED_RANGES.countP (fun p => decide (p.1 = col) && df.hasCol p.1) :=
      rangeChecksAux_countP col hr
    have hkey : EXPECTED_RANGES.countP
        (fun p => decide (p.1 = col) && df.hasCol p.1) =
        if df.hasCol col then 1 else 0 :=
      countP_key_guard df.hasCol EXPECTED_RANGES col (by decide)
        (List.mem_map_of_mem Prod.fst hmem)
    have ht0 : (typeChecks df).countP
        (fun row => decide (row.check = "Range - " ++ col)) = 0 :=
      countP_zero_of_ne (by
        intro row hrow
        obtain ⟨x, hx⟩ := typeChecks_check_shape hrow
        rw [hx]
        exact prefixed_ne x col (by decide) (by decide) (by decide))
    have hm0 : (missingChecks df).countP
        (fun row => decide (row.check = "Range - " ++ col)) = 0 :=
      countP_zero_of_ne (by
        intro row hrow
        obtain ⟨x, hx⟩ := missingChecks_check_shape hrow
        rw [hx]
        exact prefixed_ne x col (by decide) (by decide) (by decide))
    have hi0 : ([nullIdRow cid, dupIdRow cid] : List CheckRow).countP
        (fun row => decide (row.check = "Range - " ++ col)) = 0 :=
      countP_zero_of_ne (by
        intro row hrow
        rcases List.mem_cons.mp hrow with rfl | hrow2
        · rw [nullIdRow_check]
          show "Integrity - " ++ "Null ID" ≠ "Range - " ++ col
          exact prefixed_ne "Null ID" col (by decide) (by decide) (by decide)
        · rcases List.mem_cons.mp hrow2 with rfl | h3
          · rw [dupIdRow_check]
            show "Integrity - " ++ "Duplicates" ≠ "Range - " ++ col
            exact prefixed_ne "Duplicates" col (by decide) (by decide) (by decide)
          · cases h3)
    have hd0 : (domainChecks df).countP
        (fun row => decide (row.check = "Range - " ++ col)) = 0 :=
      countP_zero_of_ne (by
        intro row hrow
        obtain ⟨x, hx⟩ := domainChecks_check_shape hrow
        rw [hx]
        exact prefixed_ne x col (by decide) (by decide) (by decide))
    rw [ht0, hm0, hi0, hown, hkey, hd0]
    simp
  · intro col hcol
    rw [List.countP_append, List.countP_append, List.countP_append, List.countP_append]
    have hd : (domainChecks df).countP
        (fun row => decide (row.check = "Domain - " ++ col)) = 1 := by
      unfold domainChecks
      rw [List.countP_map]
      have hcg : EXPECTED_CATEGORIES.countP
          ((fun row => decide (row.check = "Domain - " ++ col)) ∘
            (fun p => domainCheckRow df p.1 p.2)) =
          EXPECTED_CATEGORIES.countP (fun p => decide (p.1 = col)) :=
        List.countP_congr (by
          intro p hp
          simp only [Function.comp_apply, decide_eq_true_eq, domainCheckRow_check]
          constructor
          · intro h
            exact string_append_left_cancel h
          · intro h
            rw [h])
      rw [hcg]
      exact countP_fst_eq_one EXPECTED_CATEGORIES col (by decide) hcol
    have ht0 : (typeChecks df).countP
        (fun row => decide (row.check = "Domain - " ++ col)) = 0 :=
      countP_zero_of_ne (by
        intro row hrow
        obtain ⟨x, hx⟩ := typeChecks_check_shape hrow
        rw [hx]
        exact prefixed_ne x col (by decide) (by decide) (by decide))
    have hm0 : (missingChecks df).countP
        (fun row => decide (row.check = "Domain - " ++ col)) = 0 :=
      countP_zero_of_ne (by
        intro row hrow
        obtain ⟨x, hx⟩ := missingChecks_check_shape hrow
        rw [hx]
        exact prefixed_ne x col (by decide) (by decide) (by decide))
    have hi0 : ([nullIdRow cid, dupIdRow cid] : List CheckRow).countP
        (fun row => decide (row.check = "Domain - " ++ col)) = 0 :=
      countP_zero_of_ne (by
        intro row hrow
        rcases List.mem_cons.mp hrow with rfl | hrow2
        · rw [nullIdRow_check]
          show "Integrity - " ++ "Null ID" ≠ "Domain - " ++ col
          exact prefixed_ne "Null ID" col (by decide) (by decide) (by decide)
        · rcases List.mem_cons.mp hrow2 with rfl | h3
          · rw [dupIdRow_check]
            show "Integrity - " ++ "Duplicates" ≠ "Domain - " ++ col
            exact prefixed_ne "Duplicates" col (by decide) (by decide) (by decide)
          · cases h3)
    have hr0 : ranges.countP
        (fun row => decide (row.check = "Domain - " ++ col)) = 0 :=
      countP_zero_of_ne (by
        intro row hrow
        obtain ⟨x, hx⟩ := rangeChecksAux_check_shape hr hrow
        rw [hx]
        exact prefixed_ne x col (by decide) (by decide) (by decide))
    rw [ht0, hm0, hi0, hr0, hd]

/-- Witness for C6 at a concrete two-column batch: exactly one null-ID
integrity row, and exactly one range row for the present tenure column. -/
theorem report_shape_witness :
    (repOf tenureBoundaryBatch).countP
        (fun row => decide (row.check = "Integrity - Null ID")) = 1 ∧
      (repOf tenureBoundaryBatch).countP
        (fun row => decide (row.check = "Range - " ++ "tenure")) =
        (if tenureBoundaryBatch.hasCol "tenure" then 1 else 0) := by
  have h := report_shape tenureBoundaryBatch (repOf tenureBoundaryBatch) rfl (by decide)
  exact ⟨h.2.2.2.1, h.2.2.2.2.2.1 "tenure" 0 100 (by decide)⟩

end ChurnPipeline
